import Mathlib

/-!
Verification of the micromouse navigation core of this repository.

The development shallowly embeds the three implementations that the
repository ships:

* `MouseGpt` — `src/mouse/mouse_gpt.py` (maze model with tri-state walls,
  flood fill, momentum-aware token sequencing, `handle_post`);
* `App` — `src/app.py` (`MicroMouseController`: wall set, flood fill,
  goal finisher, `step`);
* `Mouse` — `src/mouse/mouse.py` (conservative token helpers and
  `choose_instructions`).

Python `while` loops whose termination is not structural are embedded with
an explicit fuel parameter large enough for every run the program performs;
the invariants proved about them are established for every fuel value.
-/

namespace MouseGpt

/-- `GRID_W = GRID_H = 16`; `in_bounds` from mouse_gpt.py. -/
def in_bounds (x y : Int) : Bool :=
  (0 ≤ x && x < 16) && (0 ≤ y && y < 16)

/-- `DX = [0, 1, 0, -1]` indexed by facing 0=N,1=E,2=S,3=W. -/
def DX : Fin 4 → Int
  | 0 => 0
  | 1 => 1
  | 2 => 0
  | 3 => -1

/-- `DY = [1, 0, -1, 0]`. -/
def DY : Fin 4 → Int
  | 0 => 1
  | 1 => 0
  | 2 => -1
  | 3 => 0

/-- `LEFT = [3, 0, 1, 2]` (facing-1 mod 4). -/
def LEFT (f : Fin 4) : Fin 4 := f + 3

/-- `RIGHT = [1, 2, 3, 0]` (facing+1 mod 4). -/
def RIGHT (f : Fin 4) : Fin 4 := f + 1

/-- `BACK = [2, 3, 0, 1]`. -/
def BACK (f : Fin 4) : Fin 4 := f + 2

/-- `GOAL_CELLS = {(7,7), (7,8), (8,7), (8,8)}` (as the list the BFS seeds
iterate over). -/
def GOAL_CELLS : List (Int × Int) := [(7,7), (7,8), (8,7), (8,8)]

/-- The maze: per-cell tri-state wall knowledge (`None` unknown, `some true`
wall, `some false` confirmed open) plus the visited flag of `Cell`. -/
structure Maze where
  walls : Int → Int → Fin 4 → Option Bool
  visited : Int → Int → Bool

/-- A fresh `Maze()`: every wall unknown, nothing visited. -/
def Maze.init : Maze := ⟨fun _ _ _ => none, fun _ _ => false⟩

/-- Point update of the wall table at one `(x, y, dir)` triple. -/
def updW (w : Int → Int → Fin 4 → Option Bool) (x y : Int) (d : Fin 4)
    (v : Option Bool) : Int → Int → Fin 4 → Option Bool :=
  fun x' y' d' => if x' = x ∧ y' = y ∧ d' = d then v else w x' y' d'

/-- `Maze.set_wall(x, y, dir, present)`: records the observation at `(x,y)`
(upgrading a conflicting record to a wall) and mirrors it to the in-bounds
neighbor (again upgrading a conflict to a wall). -/
def set_wall (m : Maze) (x y : Int) (dir : Fin 4) (present : Bool) : Maze :=
  if in_bounds x y then
    let old := m.walls x y dir
    let p1 := match old with
      | some o => if o != present then true else present
      | none => present
    let w1 := updW m.walls x y dir (some p1)
    let nx := x + DX dir
    let ny := y + DY dir
    let rdir : Fin 4 := dir + 2
    if in_bounds nx ny then
      let nold := w1 nx ny rdir
      let p2 := match nold with
        | some o => if o != p1 then true else p1
        | none => p1
      { m with walls := updW w1 nx ny rdir (some p2) }
    else
      { m with walls := w1 }
  else m

/-- `Maze.is_blocked(x, y, dir)`: out of bounds is always blocked, otherwise
the stored tri-state. -/
def is_blocked (m : Maze) (x y : Int) (dir : Fin 4) : Option Bool :=
  if !in_bounds x y then some true else m.walls x y dir

/-- One recorded `set_wall` call. -/
structure WallCall where
  x : Int
  y : Int
  dir : Fin 4
  present : Bool

/-- A sequence of `set_wall` calls applied in order. -/
def applyCalls (calls : List WallCall) (m : Maze) : Maze :=
  calls.foldl (fun m c => set_wall m c.x c.y c.dir c.present) m

lemma DX_DY_ne_zero : ∀ d : Fin 4, DX d ≠ 0 ∨ DY d ≠ 0 := by decide

lemma DX_add_two : ∀ d : Fin 4, DX (d + 2) = -DX d := by decide

lemma DY_add_two : ∀ d : Fin 4, DY (d + 2) = -DY d := by decide

lemma add_two_add_two : ∀ d : Fin 4, d + 2 + 2 = d := by decide

lemma neigh_ne_self (x y : Int) (d : Fin 4) :
    ¬(x + DX d = x ∧ y + DY d = y ∧ d + 2 = d) := by
  rintro ⟨h1, h2, _⟩
  rcases DX_DY_ne_zero d with h' | h' <;> omega

lemma self_ne_neigh (x y : Int) (d : Fin 4) :
    ¬(x = x + DX d ∧ y = y + DY d ∧ d = d + 2) := by
  rintro ⟨h1, h2, _⟩
  rcases DX_DY_ne_zero d with h' | h' <;> omega

/-- The conflict-resolution step of `set_wall`: what gets stored over an old
record when the reading reports `present`. -/
def resolveW (old : Option Bool) (present : Bool) : Bool :=
  match old with
  | some o => if o != present then true else present
  | none => present

lemma resolveW_of_true (p : Bool) : resolveW (some true) p = true := by
  cases p <;> rfl

lemma walls_set (m : Maze) (W : Int → Int → Fin 4 → Option Bool) :
    ({ m with walls := W } : Maze).walls = W := rfl

/-- `set_wall` written through `resolveW` with the lets inlined; equal to the
direct definition. -/
lemma set_wall_eq (m : Maze) (x y : Int) (dir : Fin 4) (present : Bool) :
    set_wall m x y dir present =
      if in_bounds x y then
        (if in_bounds (x + DX dir) (y + DY dir) then
          { m with walls := (updW
              (updW m.walls x y dir (some (resolveW (m.walls x y dir) present)))
              (x + DX dir) (y + DY dir) (dir + 2)
              (some (resolveW
                (updW m.walls x y dir (some (resolveW (m.walls x y dir) present))
                  (x + DX dir) (y + DY dir) (dir + 2))
                (resolveW (m.walls x y dir) present)))) }
        else { m with walls :=
          (updW m.walls x y dir (some (resolveW (m.walls x y dir) present))) })
      else m := rfl

lemma updW_self (w : Int → Int → Fin 4 → Option Bool) (x y : Int) (d : Fin 4)
    (v : Option Bool) : updW w x y d v x y d = v := by
  simp [updW]

lemma updW_ne (w : Int → Int → Fin 4 → Option Bool) {x y : Int} {d : Fin 4}
    (v : Option Bool) {x' y' : Int} {d' : Fin 4}
    (h : ¬(x' = x ∧ y' = y ∧ d' = d)) : updW w x y d v x' y' d' = w x' y' d' := by
  simp [updW, h]

/-- The edge a `set_wall` call never writes a non-wall over: once `some true`,
any later call leaves it `some true`. -/
lemma set_wall_preserves_true {m : Maze} {x y : Int} {d : Fin 4}
    (h : m.walls x y d = some true) (x' y' : Int) (d' : Fin 4) (p : Bool) :
    (set_wall m x' y' d' p).walls x y d = some true := by
  rw [set_wall_eq]
  by_cases hb : in_bounds x' y' = true
  · rw [if_pos hb]
    by_cases hnb : in_bounds (x' + DX d') (y' + DY d') = true
    · rw [if_pos hnb, walls_set]
      by_cases hE2 : x = x' + DX d' ∧ y = y' + DY d' ∧ d = d' + 2
      · obtain ⟨hx, hy, hd⟩ := hE2
        subst hx; subst hy; subst hd
        rw [updW_self, updW_ne _ _ (neigh_ne_self x' y' d'), h, resolveW_of_true]
      · rw [updW_ne _ _ hE2]
        by_cases hE1 : x = x' ∧ y = y' ∧ d = d'
        · obtain ⟨hx, hy, hd⟩ := hE1
          subst hx; subst hy; subst hd
          rw [updW_self, h, resolveW_of_true]
        · rw [updW_ne _ _ hE1]
          exact h
    · rw [if_neg hnb, walls_set]
      by_cases hE1 : x = x' ∧ y = y' ∧ d = d'
      · obtain ⟨hx, hy, hd⟩ := hE1
        subst hx; subst hy; subst hd
        rw [updW_self, h, resolveW_of_true]
      · rw [updW_ne _ _ hE1]
        exact h
  · rw [if_neg hb]
    exact h

/-- A `set_wall(..., present=True)` call on in-bounds coordinates records a
wall on its own side, and on the mirrored side when the neighbor is in
bounds. -/
lemma set_wall_records_true (m : Maze) (x y : Int) (d : Fin 4)
    (h : in_bounds x y = true) :
    (set_wall m x y d true).walls x y d = some true ∧
      (in_bounds (x + DX d) (y + DY d) = true →
        (set_wall m x y d true).walls (x + DX d) (y + DY d) (d + 2) = some true) := by
  have hp1 : resolveW (m.walls x y d) true = true := by
    rcases m.walls x y d with _ | o
    · rfl
    · cases o <;> rfl
  constructor
  · rw [set_wall_eq, if_pos h]
    by_cases hnb : in_bounds (x + DX d) (y + DY d) = true
    · rw [if_pos hnb, walls_set, updW_ne _ _ (self_ne_neigh x y d), updW_self, hp1]
    · rw [if_neg hnb, walls_set, updW_self, hp1]
  · intro hnb
    rw [set_wall_eq, if_pos h, if_pos hnb, walls_set, updW_self,
      updW_ne _ _ (neigh_ne_self x y d), hp1]
    rcases m.walls (x + DX d) (y + DY d) (d + 2) with _ | o
    · rfl
    · cases o <;> rfl

/-- `INF = 10**9`. -/
def INF : Nat := 10 ^ 9

/-- `dist[x][y]` on the dense 16×16 list-of-lists distance array. -/
def dget (dist : List (List Nat)) (x y : Int) : Nat :=
  (dist.getD x.toNat []).getD y.toNat INF

/-- `dist[x][y] = v`. -/
def dset (dist : List (List Nat)) (x y : Int) (v : Nat) : List (List Nat) :=
  dist.set x.toNat ((dist.getD x.toNat []).set y.toNat v)

/-- One direction of the relaxation body of `compute_distance_field`'s
`while q` loop. Note the wall check is `maze.is_blocked(nx, ny, d)` — the
neighbor's edge in direction `d` — exactly as the source has it. -/
def bfs_relax (m : Maze) (x y : Int) (d : Fin 4)
    (s : List (List Nat) × List (Int × Int)) :
    List (List Nat) × List (Int × Int) :=
  let nx := x + DX d
  let ny := y + DY d
  if ¬in_bounds nx ny then s
  else if is_blocked m nx ny d = some true then s
  else
    let nd := dget s.1 x y + 1
    if nd < dget s.1 nx ny then (dset s.1 nx ny nd, s.2 ++ [(nx, ny)])
    else s

/-- The four-direction body for one popped cell. -/
def bfs_step (m : Maze) (x y : Int) (dist : List (List Nat))
    (q : List (Int × Int)) : List (List Nat) × List (Int × Int) :=
  ([0, 1, 2, 3] : List (Fin 4)).foldl (fun s d => bfs_relax m x y d s) (dist, q)

/-- The `while q` loop of `compute_distance_field`, with fuel bounding the
number of pops (the program's runs never exhaust it). -/
def bfs_loop (m : Maze) : Nat → List (List Nat) → List (Int × Int) → List (List Nat)
  | 0, dist, _ => dist
  | _ + 1, dist, [] => dist
  | fuel + 1, dist, (x, y) :: q =>
    let s := bfs_step m x y dist q
    bfs_loop m fuel s.1 s.2

def BFS_FUEL : Nat := 100000

/-- `compute_distance_field(maze)`: multi-source BFS seeded at the goal cells
with distance 0 over the dense 16×16 array. -/
def compute_distance_field (m : Maze) : List (List Nat) :=
  let dist0 : List (List Nat) := List.replicate 16 (List.replicate 16 INF)
  let seeded := GOAL_CELLS.foldl (fun dist c => dset dist c.1 c.2 0) dist0
  bfs_loop m BFS_FUEL seeded GOAL_CELLS

/-- Heading-relative preference used by `choose_next_cell`:
straight 0, left 1, right 2, back 3. -/
def pref (f d : Fin 4) : Nat :=
  if d = f then 0 else if d = LEFT f then 1 else if d = RIGHT f then 2 else 3

/-- One candidate option `(score, pref, d, nx, ny)`. -/
abbrev NavOption := Nat × Nat × Fin 4 × Int × Int

/-- Python's tuple comparison on the sort key `(t[0], t[1])`. -/
def optLe (a b : NavOption) : Bool :=
  decide (a.1 < b.1) || (a.1 == b.1 && decide (a.2.1 ≤ b.2.1))

/-- Stable insertion into an `optLe`-sorted list. -/
def ordIns (a : NavOption) : List NavOption → List NavOption
  | [] => [a]
  | b :: l => if optLe a b then a :: b :: l else b :: ordIns a l

/-- A stable sort by the key `(score, pref)` — the embedding of
`options.sort(key=lambda t: (t[0], t[1]))`. -/
def sortOpts : List NavOption → List NavOption
  | [] => []
  | a :: l => ordIns a (sortOpts l)

end MouseGpt

namespace MouseGpt

/-- Game pose: `Pose(x, y, facing, momentum)`. -/
structure Pose where
  x : Int
  y : Int
  facing : Fin 4
  momentum : Int
deriving DecidableEq

/-- Per-game persistent state (`GameState`). -/
structure GameState where
  maze : Maze
  pose : Pose
  exploring : Bool
  instr_queue : List String
  speed_path : List (Int × Int)
  last_run : Int

/-- A fresh `GameState()`. -/
def GameState.init : GameState := ⟨Maze.init, ⟨0, 0, 0, 0⟩, true, [], [], 0⟩

/-- The candidate filter of `choose_next_cell`: the neighbor is in bounds and
the current cell's record toward `d` is not a confirmed wall. -/
def nav_cand (mz : Maze) (x y : Int) (d : Fin 4) : Bool :=
  in_bounds (x + DX d) (y + DY d) && !(is_blocked mz x y d == some true)

/-- The option tuple built for direction `d`. -/
def nav_opt (dist : List (List Nat)) (f : Fin 4) (x y : Int) (d : Fin 4) :
    NavOption :=
  (dget dist (x + DX d) (y + DY d), pref f d, d, x + DX d, y + DY d)

/-- `choose_next_cell(gs, dist)`: build the candidate options in direction
order, sort by `(score, pref)` and take the first; if no option, rotate left
in place as default. -/
def choose_next_cell (gs : GameState) (dist : List (List Nat)) :
    Int × Int × Fin 4 :=
  let x := gs.pose.x
  let y := gs.pose.y
  let f := gs.pose.facing
  let options := ([0, 1, 2, 3] : List (Fin 4)).foldr (fun d acc =>
    if nav_cand gs.maze x y d then nav_opt dist f x y d :: acc else acc) []
  match sortOpts options with
  | [] => (x, y, LEFT f)
  | (_, _, d, nx, ny) :: _ => (nx, ny, d)

def TARGET_CRUISE : Int := 2
def MAX_ABS_M : Int := 4

/-- `straight_token_for(m_in)`: one half-step forward regulating momentum
toward the cruise target. -/
def straight_token_for (m : Int) : String × Int :=
  if m < TARGET_CRUISE then ("F2", min (m + 1) MAX_ABS_M)
  else if m > TARGET_CRUISE then ("F0", max (m - 1) 0)
  else ("F1", m)

/-- The `while abs(m) > 2` loop of `prebrake_to_wide`, fueled (each pass
shrinks `|m|` by 2, so `|m|` passes always suffice). -/
def prebrake_go : Nat → Int → List String
  | 0, _ => []
  | fuel + 1, m =>
    if 2 < m.natAbs then
      "BB" :: prebrake_go fuel (if 0 < m then max 0 (m - 2) else min 0 (m + 2))
    else []

/-- `prebrake_to_wide(m)`: append `BB` until `|m| ≤ 2`. -/
def prebrake_to_wide (m : Int) : List String := prebrake_go m.natAbs m

/-- `corner_token(direction)` = `f"F1{direction}W"`. -/
def corner_token (direction : String) : String := "F1" ++ direction ++ "W"

/-- `inplace_turns(from_f, to_f, m)`: two 45° turns per 90°, only at rest. -/
def inplace_turns (from_f to_f : Fin 4) (m : Int) : List String :=
  if m ≠ 0 then []
  else
    let diff : Fin 4 := to_f - from_f
    if diff = 0 then []
    else if diff = 1 then ["R", "R"]
    else if diff = 2 then ["R", "R", "R", "R"]
    else if diff = 3 then ["L", "L"]
    else []

/-- The braking simulation of `plan_step_toward`'s `for t in instr` loop. -/
def bb_sim (m : Int) (toks : List String) : Int :=
  toks.foldl (fun m t =>
    if t == "BB" then
      if 0 < m then max 0 (m - 2) else if m < 0 then min 0 (m + 2) else m
    else m) m

/-- `plan_step_toward(gs, next_dir)` restricted to the state it touches:
takes the facing and momentum, returns the instruction list and the new
momentum (the caller updates facing and cell). -/
def plan_step_toward (f next_dir : Fin 4) (m0 : Int) : List String × Int :=
  if next_dir = f then
    let r1 := straight_token_for m0
    let r2 := straight_token_for r1.2
    ([r1.1, r2.1], r2.2)
  else
    let instr := prebrake_to_wide m0
    let m1 := if instr ≠ [] then bb_sim m0 instr else m0
    if next_dir = LEFT f then
      let r := straight_token_for m1
      (instr ++ [corner_token "L"] ++ [r.1], r.2)
    else if next_dir = RIGHT f then
      let r := straight_token_for m1
      (instr ++ [corner_token "R"] ++ [r.1], r.2)
    else
      let instr2 := instr ++ prebrake_to_wide m1
      let s :=
        if m1 ≠ 0 then
          if 2 ≤ m1 then (instr2 ++ ["BB"], max 0 (m1 - 2))
          else if m1 = 1 then (instr2 ++ ["F0"], (0 : Int))
          else (instr2, m1)
        else (instr2, m1)
      let instr4 := s.1 ++ inplace_turns f next_dir s.2
      let r1 := straight_token_for s.2
      let r2 := straight_token_for r1.2
      (instr4 ++ [r1.1, r2.1], r2.2)

/-- The explicit-stop loop of `handle_post`'s goal branch
(`while gs.pose.momentum > 0`), fueled. -/
def stop_go : Nat → Int → List String × Int
  | 0, m => ([], m)
  | fuel + 1, m =>
    if 0 < m then
      if 2 ≤ m then
        let r := stop_go fuel (m - 2)
        ("BB" :: r.1, r.2)
      else
        let r := stop_go fuel 0
        ("F0" :: r.1, r.2)
    else ([], m)

def stop_loop (m : Int) : List String × Int := stop_go (m.toNat + 1) m

/-- The final braking loop of `plan_instructions_for_path`, fueled. -/
def final_go : Nat → Int → List String × Int
  | 0, m => ([], m)
  | fuel + 1, m =>
    if 0 < m then
      if 2 ≤ m then
        let r := final_go fuel (max 0 (m - 2))
        ("BB" :: r.1, r.2)
      else
        let r := final_go fuel 0
        ("F0" :: r.1, r.2)
    else ([], m)

def final_brake (m : Int) : List String × Int := final_go (m.toNat + 1) m

/-- Association-list lookup used for the `prev` dictionary. -/
def alookup (prev : List ((Int × Int) × (Int × Int))) (k : Int × Int) :
    Option (Int × Int) :=
  match prev with
  | [] => none
  | (a, b) :: rest => if a = k then some b else alookup rest k

/-- The `while cur != start` walk of `reconstruct_path`, with fuel. -/
def walk_prev (prev : List ((Int × Int) × (Int × Int))) :
    Nat → Int × Int → Int × Int → List (Int × Int) → List (Int × Int)
  | 0, _, _, acc => acc
  | fuel + 1, cur, start, acc =>
    if cur = start then acc
    else
      match alookup prev cur with
      | some par => walk_prev prev fuel par start (acc ++ [cur])
      | none => acc

/-- `reconstruct_path(prev, start, goal)`. -/
def reconstruct_path (prev : List ((Int × Int) × (Int × Int)))
    (start goal : Int × Int) : List (Int × Int) :=
  ((walk_prev prev 600 goal start []) ++ [start]).reverse

/-- The per-popped-cell body of `shortest_known_path`'s BFS: scans the four
directions, following only confirmed-open edges. -/
def spath_scan (m : Maze) (u : Int × Int)
    (s : List (Int × Int) × List ((Int × Int) × (Int × Int)) × List (Int × Int)) :
    List (Int × Int) × List ((Int × Int) × (Int × Int)) × List (Int × Int) :=
  ([0, 1, 2, 3] : List (Fin 4)).foldl (fun s d =>
    let (q, prev, seen) := s
    if ¬(is_blocked m u.1 u.2 d = some false) then (q, prev, seen)
    else
      let v := (u.1 + DX d, u.2 + DY d)
      if ¬in_bounds v.1 v.2 then (q, prev, seen)
      else if v ∈ seen then (q, prev, seen)
      else (q ++ [v], (v, u) :: prev, v :: seen)) s

/-- The `while q` loop of `shortest_known_path`, with fuel. -/
def spath_loop (m : Maze) (goals : List (Int × Int)) (start : Int × Int) :
    Nat → List (Int × Int) → List ((Int × Int) × (Int × Int)) →
    List (Int × Int) → Option (List (Int × Int))
  | 0, _, _, _ => none
  | _ + 1, [], _, _ => none
  | fuel + 1, u :: q, prev, seen =>
    if u ∈ goals then some (reconstruct_path prev start u)
    else
      let s := spath_scan m u (q, prev, seen)
      spath_loop m goals start fuel s.1 s.2.1 s.2.2

def SPATH_FUEL : Nat := 100000

/-- `shortest_known_path(maze, start, goals)`: BFS over confirmed-open edges
only. -/
def shortest_known_path (m : Maze) (start : Int × Int)
    (goals : List (Int × Int)) : Option (List (Int × Int)) :=
  spath_loop m goals start SPATH_FUEL [start] [] [start]

/-- The direction between consecutive path cells (`None` for non-adjacent). -/
def dir_of (a b : Int × Int) : Option (Fin 4) :=
  if b.1 = a.1 ∧ b.2 = a.2 + 1 then some 0
  else if b.1 = a.1 + 1 ∧ b.2 = a.2 then some 1
  else if b.1 = a.1 ∧ b.2 = a.2 - 1 then some 2
  else if b.1 = a.1 - 1 ∧ b.2 = a.2 then some 3
  else none

/-- The `for i in range(1, len(path))` loop of `plan_instructions_for_path`
over the consecutive pairs, threading facing, momentum, cell. -/
def plan_path_pairs :
    List ((Int × Int) × (Int × Int)) → Fin 4 × Int × (Int × Int) →
    List String × (Fin 4 × Int × (Int × Int))
  | [], st => ([], st)
  | (a, b) :: ps, (f, m, _cell) =>
    match dir_of a b with
    | none => plan_path_pairs ps (f, m, _cell)
    | some d =>
      let r := plan_step_toward f d m
      let f' := if d ≠ f then d else f
      let rest := plan_path_pairs ps (f', r.2, b)
      (r.1 ++ rest.1, rest.2)

/-- `plan_instructions_for_path(gs, path)`: plan every step, then brake to
zero; returns the instructions and the final (facing, momentum, cell). -/
def plan_instructions_for_path (path : List (Int × Int))
    (f : Fin 4) (m : Int) (cell : Int × Int) :
    List String × (Fin 4 × Int × (Int × Int)) :=
  let pairs := path.zip path.tail
  let r := plan_path_pairs pairs (f, m, cell)
  let b := final_brake r.2.2.1
  (r.1 ++ b.1, (r.2.1, b.2, r.2.2.2))

/-- The request body fields `handle_post` reads. -/
structure Body where
  is_crashed : Bool
  goal_reached : Bool
  run : Int
  momentum : Option Int
  sensor_data : Option (Int × Int × Int × Int × Int)

/-- The response `{"instructions": ..., "end": ...}`. -/
structure Resp where
  instructions : List String
  end_ : Bool

/-- Point update of the visited table. -/
def updV (vis : Int → Int → Bool) (x y : Int) (v : Bool) :
    Int → Int → Bool :=
  fun x' y' => if x' = x ∧ y' = y then v else vis x' y'

/-- `update_maze_with_sensors(gs, sensor_data)`: ±90° and 0° readings set
walls (1 wall, 0 confirmed open); diagonals ignored; cell marked visited. -/
def update_maze_with_sensors (gs : GameState)
    (sd : Int × Int × Int × Int × Int) : GameState :=
  let x := gs.pose.x
  let y := gs.pose.y
  let f := gs.pose.facing
  let left90 := sd.1
  let front := sd.2.2.1
  let right90 := sd.2.2.2.2
  let mz := gs.maze
  let mz := if left90 = 1 then set_wall mz x y (LEFT f) true
    else if left90 = 0 then set_wall mz x y (LEFT f) false else mz
  let mz := if right90 = 1 then set_wall mz x y (RIGHT f) true
    else if right90 = 0 then set_wall mz x y (RIGHT f) false else mz
  let mz := if front = 1 then set_wall mz x y f true
    else if front = 0 then set_wall mz x y f false else mz
  let mz := { mz with visited := updV mz.visited x y true }
  { gs with maze := mz }

/-- The run-counter reset block of `handle_post`: clear the transient queues,
keep the learned maze. -/
def run_reset (run : Int) (gs : GameState) : GameState :=
  if run ≠ gs.last_run then
    { gs with
      instr_queue := []
      speed_path := []
      exploring := true
      pose := ⟨0, 0, 0, 0⟩
      last_run := run }
  else gs

def BATCH_MAX : Nat := 12

/-- The state `handle_post` plans from: run reset applied, momentum taken
from the body, sensors fused into the maze. -/
def pre_state (body : Body) (gs : GameState) : GameState :=
  let gs1 := run_reset body.run gs
  let gs2 := { gs1 with pose :=
    { gs1.pose with momentum := body.momentum.getD gs1.pose.momentum } }
  update_maze_with_sensors gs2 (body.sensor_data.getD (0, 0, 0, 0, 0))

/-- `handle_post(body)` acting on one session's `GameState`; returns the
response and the updated state. -/
def handle_post (body : Body) (gs0 : GameState) : Resp × GameState :=
  if body.is_crashed then (⟨[], true⟩, gs0)
  else
    let gs := pre_state body gs0
    if gs.instr_queue ≠ [] then
      (⟨gs.instr_queue.take BATCH_MAX, false⟩,
        { gs with instr_queue := gs.instr_queue.drop BATCH_MAX })
    else if body.goal_reached then (⟨[], false⟩, gs)
    else if gs.exploring then
      let dist := compute_distance_field gs.maze
      if dget dist gs.pose.x gs.pose.y = 0 then
        let r := stop_loop gs.pose.momentum
        let gs2 := ({ gs with
          pose := { gs.pose with momentum := r.2 }
          instr_queue := gs.instr_queue ++ r.1 } : GameState)
        (⟨gs2.instr_queue.take BATCH_MAX, false⟩, gs2)
      else
        let c := choose_next_cell gs dist
        let r := plan_step_toward gs.pose.facing c.2.2 gs.pose.momentum
        let f' := if c.2.2 ≠ gs.pose.facing then c.2.2 else gs.pose.facing
        let gs2 := ({ gs with
          pose := ⟨c.1, c.2.1, f', r.2⟩
          instr_queue := gs.instr_queue ++ r.1 } : GameState)
        let gs3 := match shortest_known_path gs2.maze (gs2.pose.x, gs2.pose.y)
            GOAL_CELLS with
          | some p => if 0 < p.length then { gs2 with speed_path := p } else gs2
          | none => gs2
        (⟨gs3.instr_queue.take BATCH_MAX, false⟩, gs3)
    else
      if gs.pose.x = 0 ∧ gs.pose.y = 0 ∧ gs.pose.momentum = 0 then
        match shortest_known_path gs.maze (0, 0) GOAL_CELLS with
        | none => (⟨[], false⟩, { gs with exploring := true })
        | some path =>
          let gs2 := { gs with pose := ⟨0, 0, 0, 0⟩ }
          let r := plan_instructions_for_path path gs2.pose.facing
            gs2.pose.momentum (gs2.pose.x, gs2.pose.y)
          let gs3 := ({ gs2 with
            pose := ⟨r.2.2.2.1, r.2.2.2.2, r.2.1, r.2.2.1⟩
            instr_queue := gs2.instr_queue ++ r.1 } : GameState)
          (⟨gs3.instr_queue.take BATCH_MAX, false⟩, gs3)
      else
        if gs.instr_queue ≠ [] then
          (⟨gs.instr_queue.take BATCH_MAX, false⟩,
            { gs with instr_queue := gs.instr_queue.drop BATCH_MAX })
        else (⟨[], false⟩, gs)

end MouseGpt

namespace MouseGpt

lemma resolveW_idem (old : Option Bool) (p : Bool) :
    resolveW old (resolveW old p) = resolveW old p := by
  rcases old with _ | o
  · rfl
  · cases o <;> cases p <;> rfl

/-- Reciprocity: for every pair of adjacent in-bounds cells, the edge state
stored at `(x,y)` toward the neighbor agrees with the reciprocal edge state
stored at the neighbor for the opposite direction. -/
def MazeSymm (m : Maze) : Prop :=
  ∀ x y : Int, ∀ d : Fin 4, in_bounds x y = true →
    in_bounds (x + DX d) (y + DY d) = true →
    m.walls x y d = m.walls (x + DX d) (y + DY d) (d + 2)

lemma init_symm : MazeSymm Maze.init := by
  intro x y d _ _
  rfl

lemma fin_cancel_two {e dir : Fin 4} (h : e + 2 = dir + 2) : e = dir := by
  have h1 := add_two_add_two e
  have h2 := add_two_add_two dir
  rw [← h1, ← h2, h]

lemma fin_shift_two {e dir : Fin 4} (h : e + 2 = dir) : e = dir + 2 := by
  have h1 := add_two_add_two e
  rw [← h1, h]

/-- `set_wall` preserves reciprocity: the call writes the same resolved value
to both sides of the touched edge (when both cells are in bounds), and no
other edge changes. -/
lemma set_wall_symm {m : Maze} (hs : MazeSymm m) (x y : Int) (dir : Fin 4)
    (p : Bool) : MazeSymm (set_wall m x y dir p) := by
  intro a b e ha hab
  rw [set_wall_eq]
  by_cases hb : in_bounds x y = true
  · rw [if_pos hb]
    by_cases hnb : in_bounds (x + DX dir) (y + DY dir) = true
    · rw [if_pos hnb, walls_set]
      have hsym0 : m.walls (x + DX dir) (y + DY dir) (dir + 2) = m.walls x y dir :=
        (hs x y dir hb hnb).symm
      have hp2 : resolveW (updW m.walls x y dir
          (some (resolveW (m.walls x y dir) p))
          (x + DX dir) (y + DY dir) (dir + 2)) (resolveW (m.walls x y dir) p) =
          resolveW (m.walls x y dir) p := by
        rw [updW_ne _ _ (neigh_ne_self x y dir), hsym0, resolveW_idem]
      rw [hp2]
      by_cases hE1 : a = x ∧ b = y ∧ e = dir
      · obtain ⟨h1, h2, h3⟩ := hE1
        subst h1; subst h2; subst h3
        rw [updW_ne _ _ (self_ne_neigh a b e), updW_self, updW_self]
      · by_cases hE2 : a = x + DX dir ∧ b = y + DY dir ∧ e = dir + 2
        · obtain ⟨h1, h2, h3⟩ := hE2
          have hax : a + DX e = x := by
            rw [h3, DX_add_two, h1]; ring
          have hby : b + DY e = y := by
            rw [h3, DY_add_two, h2]; ring
          have hev : e + 2 = dir := by
            rw [h3, add_two_add_two]
          rw [show (a : Int) = x + DX dir from h1, show (b : Int) = y + DY dir from h2,
            show e = dir + 2 from h3, updW_self]
          rw [show x + DX dir + DX (dir + 2) = x by rw [DX_add_two]; ring,
            show y + DY dir + DY (dir + 2) = y by rw [DY_add_two]; ring,
            add_two_add_two]
          rw [updW_ne _ _ (self_ne_neigh x y dir), updW_self]
        · rw [updW_ne _ _ hE2, updW_ne _ _ hE1]
          have hP2 : ¬(a + DX e = x + DX dir ∧ b + DY e = y + DY dir ∧
              e + 2 = dir + 2) := by
            rintro ⟨q1, q2, q3⟩
            have he : e = dir := fin_cancel_two q3
            subst he
            exact hE1 ⟨by omega, by omega, rfl⟩
          have hP1 : ¬(a + DX e = x ∧ b + DY e = y ∧ e + 2 = dir) := by
            rintro ⟨q1, q2, q3⟩
            have he : e = dir + 2 := fin_shift_two q3
            subst he
            rw [DX_add_two] at q1
            rw [DY_add_two] at q2
            exact hE2 ⟨by omega, by omega, rfl⟩
          rw [updW_ne _ _ hP2, updW_ne _ _ hP1]
          exact hs a b e ha hab
    · rw [if_neg hnb, walls_set]
      by_cases hE1 : a = x ∧ b = y ∧ e = dir
      · obtain ⟨h1, h2, h3⟩ := hE1
        subst h1; subst h2; subst h3
        exact absurd hab hnb
      · rw [updW_ne _ _ hE1]
        by_cases hP1 : a + DX e = x ∧ b + DY e = y ∧ e + 2 = dir
        · obtain ⟨q1, q2, q3⟩ := hP1
          have he : e = dir + 2 := fin_shift_two q3
          subst he
          rw [DX_add_two] at q1
          rw [DY_add_two] at q2
          have hax : a = x + DX dir := by omega
          have hby : b = y + DY dir := by omega
          rw [hax, hby] at ha
          exact absurd ha hnb
        · rw [updW_ne _ _ hP1]
          exact hs a b e ha hab
  · rw [if_neg hb]
    exact hs a b e ha hab

end MouseGpt

namespace App

/-- The four cardinal headings `'N' | 'E' | 'S' | 'W'` of app.py. -/
inductive D4 where
  | N
  | E
  | S
  | W
deriving DecidableEq, Fintype

/-- `VEC = {'N':(0,1), 'E':(1,0), 'S':(0,-1), 'W':(-1,0)}`. -/
def VEC : D4 → Int × Int
  | .N => (0, 1)
  | .E => (1, 0)
  | .S => (0, -1)
  | .W => (-1, 0)

/-- `RIGHT = {'N':'E','E':'S','S':'W','W':'N'}`. -/
def RIGHT : D4 → D4
  | .N => .E
  | .E => .S
  | .S => .W
  | .W => .N

/-- `LEFT = {'N':'W','W':'S','S':'E','E':'N'}`. -/
def LEFT : D4 → D4
  | .N => .W
  | .W => .S
  | .S => .E
  | .E => .N

/-- `BACK = {'N':'S','S':'N','E':'W','W':'E'}`. -/
def BACK : D4 → D4
  | .N => .S
  | .S => .N
  | .E => .W
  | .W => .E

/-- `SIDES = ['N','E','S','W']`. -/
def SIDES : List D4 := [.N, .E, .S, .W]

/-- `SIDE_VEC` (same table as `VEC` in the source). -/
def SIDE_VEC : D4 → Int × Int
  | .N => (0, 1)
  | .E => (1, 0)
  | .S => (0, -1)
  | .W => (-1, 0)

def in_bounds (x y : Int) : Bool :=
  decide (0 ≤ x) && decide (x < 16) && decide (0 ≤ y) && decide (y < 16)

def GOAL_CELLS : List (Int × Int) := [(7,7), (7,8), (8,7), (8,8)]

def is_goal_cell (c : Int × Int) : Bool := c ∈ GOAL_CELLS

/-- `BOUNDARY_WALLS`: the four pre-seeded boundary edge sets. -/
def BOUNDARY_WALLS : Int × Int × D4 → Bool
  | (x, y, d) =>
    match d with
    | .S => y == 0 && decide (0 ≤ x) && decide (x < 16)
    | .N => y == 15 && decide (0 ≤ x) && decide (x < 16)
    | .W => x == 0 && decide (0 ≤ y) && decide (y < 16)
    | .E => x == 15 && decide (0 ≤ y) && decide (y < 16)

/-- `MouseState`: walls is the set `{(x, y, dir)}` as its membership test. -/
structure MouseState where
  cell : Int × Int
  heading : D4
  momentum : Int
  walls : Int × Int × D4 → Bool

/-- `MouseState()` after `__post_init__`: boundary walls seeded. -/
def MouseState.init : MouseState := ⟨(0, 0), .N, 0, BOUNDARY_WALLS⟩

/-- `self.state.walls.add(e)`. -/
def addWall (w : Int × Int × D4 → Bool) (e : Int × Int × D4) :
    Int × Int × D4 → Bool :=
  fun e' => if e' = e then true else w e'

/-- The sensed side relative to the current heading. -/
inductive Side where
  | F
  | R
  | L
deriving DecidableEq, Fintype

/-- The absolute direction of a sensed side:
`{'F': h, 'R': RIGHT[h], 'L': LEFT[h]}[side]`. -/
def side_dir (h : D4) : Side → D4
  | .F => h
  | .R => RIGHT h
  | .L => LEFT h

/-- `_mark_wall(side)`: record the wall at the current cell and mirror it to
the in-bounds neighbor. -/
def mark_wall (st : MouseState) (side : Side) : MouseState :=
  let x := st.cell.1
  let y := st.cell.2
  let sd := side_dir st.heading side
  let w := addWall st.walls (x, y, sd)
  let v := SIDE_VEC sd
  let nx := x + v.1
  let ny := y + v.2
  let w := if in_bounds nx ny then addWall w (nx, ny, BACK sd) else w
  { st with walls := w }

/-- `_has_wall(cell, dirc)`. -/
def has_wall (st : MouseState) (cell : Int × Int) (dirc : D4) : Bool :=
  st.walls (cell.1, cell.2, dirc)

def INF : Nat := 10 ^ 9

def dget (dist : List (List Nat)) (x y : Int) : Nat :=
  (dist.getD x.toNat []).getD y.toNat INF

def dset (dist : List (List Nat)) (x y : Int) (v : Nat) : List (List Nat) :=
  dist.set x.toNat ((dist.getD x.toNat []).set y.toNat v)

/-- One direction of `_compute_dist`'s relaxation: movement allowed only if
NO wall on the edge between `(x,y)` and `(nx,ny)`, checked on both sides. -/
def cd_relax (st : MouseState) (x y : Int) (d0 : Nat) (dirc : D4)
    (s : List (List Nat) × List (Int × Int)) :
    List (List Nat) × List (Int × Int) :=
  let v := SIDE_VEC dirc
  let nx := x + v.1
  let ny := y + v.2
  if ¬in_bounds nx ny then s
  else if has_wall st (x, y) dirc then s
  else if has_wall st (nx, ny) (BACK dirc) then s
  else if d0 + 1 < dget s.1 nx ny then (dset s.1 nx ny (d0 + 1), s.2 ++ [(nx, ny)])
  else s

/-- The `while dq` loop of `_compute_dist`, with fuel. -/
def cd_loop (st : MouseState) : Nat → List (List Nat) → List (Int × Int) →
    List (List Nat)
  | 0, dist, _ => dist
  | _ + 1, dist, [] => dist
  | fuel + 1, dist, (x, y) :: q =>
    let d0 := dget dist x y
    let s := SIDES.foldl (fun s dirc => cd_relax st x y d0 dirc s) (dist, q)
    cd_loop st fuel s.1 s.2

def CD_FUEL : Nat := 100000

/-- `_compute_dist()`: flood-fill distances to goal using known walls,
unknown edges open. -/
def compute_dist (st : MouseState) : List (List Nat) :=
  let dist0 : List (List Nat) := List.replicate 16 (List.replicate 16 INF)
  let seeded := GOAL_CELLS.foldl (fun dist c => dset dist c.1 c.2 0) dist0
  cd_loop st CD_FUEL seeded GOAL_CELLS

/-- `_choose_next_dir(dist)`: scan N,E,S,W keeping the first strict
improvement. -/
def choose_next_dir (st : MouseState) (dist : List (List Nat)) : Option D4 :=
  let x := st.cell.1
  let y := st.cell.2
  (SIDES.foldl (fun (b : Option D4 × Nat) dirc =>
    let v := SIDE_VEC dirc
    let nx := x + v.1
    let ny := y + v.2
    if ¬in_bounds nx ny then b
    else if has_wall st (x, y) dirc then b
    else if dget dist nx ny < b.2 then (some dirc, dget dist nx ny)
    else b) (none, 10 ^ 9)).1

/-- `_ensure_rest()`: a single `F0` when cruising. -/
def ensure_rest (st : MouseState) : List String × MouseState :=
  if 0 < st.momentum then (["F0"], { st with momentum := 0 })
  else ([], st)

/-- Heading index used by `_rotate_to` (and by `_finish_if_goal`'s
`turn_seq`, which indexes the same `['N','E','S','W']` order). -/
def dIdx : D4 → Int
  | .N => 0
  | .E => 1
  | .S => 2
  | .W => 3

/-- `_rotate_to(target_heading)`: in-place 90° turns as pairs of 45° tokens,
choosing the shorter of the clockwise/counterclockwise spins. -/
def rotate_to (st : MouseState) (target : D4) : List String × MouseState :=
  let cur := dIdx st.heading
  let tgt := dIdx target
  let cw := (tgt - cur) % 4
  let ccw := (cur - tgt) % 4
  if cw ≤ ccw then
    ((List.replicate cw.toNat (["R", "R"] : List String)).flatten,
      { st with heading := target })
  else
    ((List.replicate ccw.toNat (["L", "L"] : List String)).flatten,
      { st with heading := target })

/-- `_forward_one_cell()`: one cell forward, ending at momentum 1. -/
def forward_one_cell (st : MouseState) : List String × MouseState :=
  let toks := if st.momentum = 0 then ["F2", "F1"] else ["F1", "F1"]
  let v := VEC st.heading
  (toks, { st with
    cell := (st.cell.1 + v.1, st.cell.2 + v.2)
    momentum := 1 })

/-- `_heading_points_into_goal(cell, heading)`. -/
def heading_points_into_goal (cell : Int × Int) (heading : D4) : Bool :=
  let v := VEC heading
  let nx := cell.1 + v.1
  let ny := cell.2 + v.2
  in_bounds nx ny && is_goal_cell (nx, ny)

/-- The `turn_seq(cur, tgt)` helper of `_finish_if_goal`. -/
def turn_seq (cur tgt : D4) : List String :=
  let ci := dIdx cur
  let ti := dIdx tgt
  let cw := (ti - ci) % 4
  let ccw := (ci - ti) % 4
  if cw ≤ ccw then ["R", "R"] else ["L", "L"]

/-- `_finish_if_goal()`: the goal-aware finisher. -/
def finish_if_goal (st : MouseState) : List String × MouseState :=
  let x := st.cell.1
  let y := st.cell.2
  if ¬is_goal_cell (x, y) then ([], st)
  else if heading_points_into_goal (x, y) st.heading then
    if 0 < st.momentum then (["F0"], { st with momentum := 0 })
    else ([], st)
  else
    let candidate_dirs := SIDES.filter (fun dirc =>
      let v := VEC dirc
      let nx := x + v.1
      let ny := y + v.2
      in_bounds nx ny && is_goal_cell (nx, ny) && !has_wall st (x, y) dirc)
    match candidate_dirs with
    | [] => if 0 < st.momentum then (["F0"], st) else ([], st)
    | target :: _ =>
      let seq := turn_seq st.heading target
      let toks : List String := if st.momentum = 0 then ["F2"] else []
      let toks := toks ++ seq
      let toks := toks ++ ["F1"]
      let v := VEC target
      (toks ++ ["F0"], { st with
        heading := target
        cell := (x + v.1, y + v.2)
        momentum := 0 })

/-- The payload fields `step` reads. -/
structure Payload where
  momentum : Option Int
  sensor_data : Option (Int × Int × Int × Int × Int)

/-- The corridor stride loop of `step` (`for _ in range(stride)` with the
early return when the finisher fires). -/
def stride_loop : Nat → MouseState → List String → List String × MouseState
  | 0, st, acc => (acc, st)
  | n + 1, st, acc =>
    let rf := forward_one_cell st
    let fin := finish_if_goal rf.2
    if fin.1 ≠ [] then (acc ++ rf.1 ++ fin.1, fin.2)
    else stride_loop n fin.2 (acc ++ rf.1)

/-- The acting half of `MicroMouseController.step(payload)` (everything after
the sensor-marking prologue): finisher check → flood → act. -/
def step_act (st1 : MouseState) : List String × MouseState :=
  let fin := finish_if_goal st1
  if fin.1 ≠ [] then fin
  else
    let st := fin.2
    let dist := compute_dist st
    match choose_next_dir st dist with
    | none =>
      let r1 := ensure_rest st
      let r2 := rotate_to r1.2 (BACK r1.2.heading)
      let r3 := forward_one_cell r2.2
      let fin2 := finish_if_goal r3.2
      (r1.1 ++ r2.1 ++ r3.1 ++ fin2.1, fin2.2)
    | some desired =>
      let s :=
        if desired ≠ st.heading then
          let r1 := ensure_rest st
          let r2 := rotate_to r1.2 desired
          (r1.1 ++ r2.1, r2.2)
        else (([] : List String), st)
      let st := s.2
      let h := st.heading
      let left_wall := has_wall st st.cell (LEFT h)
      let right_wall := has_wall st st.cell (RIGHT h)
      let stride : Nat :=
        if left_wall && right_wall && !has_wall st st.cell h then 2 else 1
      stride_loop stride st s.1

/-- `MicroMouseController.step(payload)`: sense → map → flood → act. -/
def step (st0 : MouseState) (p : Payload) : List String × MouseState :=
  let st := { st0 with momentum := if 0 < p.momentum.getD 0 then 1 else 0 }
  let sd := p.sensor_data.getD (0, 0, 0, 0, 0)
  let st := if sd.2.2.1 = 1 then mark_wall st .F else st
  let st := if sd.2.2.2.2 = 1 then mark_wall st .R else st
  let st := if sd.1 = 1 then mark_wall st .L else st
  step_act st

end App

namespace Mouse

/-- `brake_to_zero_tokens`' `while cur > 0 and len(toks) < max_tokens` loop,
recursing on the remaining token budget. -/
def brake_go (cur : Int) : Nat → List String
  | 0 => []
  | b + 1 =>
    if 0 < cur then
      if 2 ≤ cur then "BB" :: brake_go (cur - 2) b
      else "F0" :: brake_go (cur - 1) b
    else []

/-- `brake_to_zero_tokens(m, max_tokens)`. -/
def brake_to_zero_tokens (m : Int) (max_tokens : Nat) : List String :=
  if m ≤ 0 then [] else brake_go m max_tokens

/-- `accel_forward_tokens(m, target, max_tokens)`: at most one `F2`, then one
`F1`. -/
def accel_forward_tokens (m : Int) (target : Int) (max_tokens : Nat) :
    List String :=
  let cur := max 0 m
  let toks : List String := []
  let s := if cur < target ∧ toks.length < max_tokens
    then (toks ++ ["F2"], min (cur + 1) 4) else (toks, cur)
  let toks := s.1
  if toks.length < max_tokens then toks ++ ["F1"] else toks

/-- `turn_in_place_tokens(direction, m, max_tokens)`. -/
def turn_in_place_tokens (direction : String) (m : Int) (max_tokens : Nat) :
    List String :=
  let toks := brake_to_zero_tokens m max_tokens
  if toks.length < max_tokens then
    toks ++ [if direction == "L" then "L" else "R"]
  else toks

/-- The body fields `choose_instructions` reads. -/
structure MBody where
  momentum : Option Int
  sensor_data : Option (Int × Int × Int × Int × Int)
  is_crashed : Bool
  goal_reached : Bool

/-- `choose_instructions(body)`. -/
def choose_instructions (body : MBody) : List String :=
  let m := body.momentum.getD 0
  let sensors := body.sensor_data.getD (0, 0, 0, 0, 0)
  if body.is_crashed || body.goal_reached then
    let toks := brake_to_zero_tokens m 2
    if toks = [] then ["BB"] else toks
  else
    let left_clear := sensors.1 ≠ 0
    let front_clear := sensors.2.2.1 ≠ 0
    let right_clear := sensors.2.2.2.2 ≠ 0
    if ¬front_clear then
      if left_clear then turn_in_place_tokens "L" m 3
      else if right_clear then turn_in_place_tokens "R" m 3
      else turn_in_place_tokens "R" m 2
    else accel_forward_tokens m 2 2

end Mouse

namespace Tokens

/-- The documented per-token momentum delta, uncapped: `F2` +1, `F1` 0,
`F0` −1, `BB` −2, rotations and moving corners 0. -/
def tokStep (m : Int) (t : String) : Int :=
  if t == "F2" then m + 1
  else if t == "F1" then m
  else if t == "F0" then m - 1
  else if t == "BB" then m - 2
  else m

/-- Momentum after a token sequence under the documented deltas. -/
def runTok (m : Int) (toks : List String) : Int := toks.foldl tokStep m

/-- Every prefix of the batch keeps the documented momentum within `[0, 4]`:
no emitted token drives momentum outside the bound. -/
def SafeRun (m : Int) (toks : List String) : Prop :=
  ∀ n : Nat, 0 ≤ runTok m (toks.take n) ∧ runTok m (toks.take n) ≤ 4

/-- Every in-place rotation token in the batch occurs where the simulated
momentum at that point is 0 (as a decidable check). -/
def rotAtRestB (m : Int) (toks : List String) : Bool :=
  (List.range toks.length).all (fun n =>
    !(toks.getD n "" == "L" || toks.getD n "" == "R") ||
      decide (runTok m (toks.take n) = 0))

lemma runTok_nil (m : Int) : runTok m [] = m := rfl

lemma runTok_cons (m : Int) (t : String) (ts : List String) :
    runTok m (t :: ts) = runTok (tokStep m t) ts := rfl

lemma runTok_append (m : Int) (a b : List String) :
    runTok m (a ++ b) = runTok (runTok m a) b := by
  simp [runTok, List.foldl_append]

lemma SafeRun_nil {m : Int} (h0 : 0 ≤ m) (h4 : m ≤ 4) : SafeRun m [] := by
  intro n
  simp [runTok]
  omega

lemma SafeRun_cons {m : Int} {t : String} {ts : List String}
    (h0 : 0 ≤ m) (h4 : m ≤ 4) (h : SafeRun (tokStep m t) ts) :
    SafeRun m (t :: ts) := by
  intro n
  cases n with
  | zero =>
    simp [runTok]
    omega
  | succ k =>
    simpa [List.take_succ_cons, runTok_cons] using h k

lemma SafeRun_append {m : Int} {a b : List String}
    (ha : SafeRun m a) (hb : SafeRun (runTok m a) b) : SafeRun m (a ++ b) := by
  intro n
  by_cases hn : n ≤ a.length
  · have : (a ++ b).take n = a.take n := by
      rw [List.take_append_of_le_length hn]
    rw [this]
    exact ha n
  · have : (a ++ b).take n = a ++ b.take (n - a.length) := by
      rw [List.take_append_eq_append_take, List.take_of_length_le (by omega)]
    rw [this, runTok_append]
    exact hb (n - a.length)

lemma SafeRun_head {m : Int} {toks : List String} (h : SafeRun m toks) :
    0 ≤ m ∧ m ≤ 4 := by
  simpa [runTok] using h 0

end Tokens

namespace MouseGpt

lemma applyCalls_nil (m : Maze) : applyCalls [] m = m := rfl

lemma applyCalls_cons (c : WallCall) (cs : List WallCall) (m : Maze) :
    applyCalls (c :: cs) m = applyCalls cs (set_wall m c.x c.y c.dir c.present) := rfl

/-- Wall monotonicity propagated through an arbitrary sequence of calls. -/
lemma applyCalls_preserves_true {m : Maze} {x y : Int} {d : Fin 4}
    (h : m.walls x y d = some true) (calls : List WallCall) :
    (applyCalls calls m).walls x y d = some true := by
  induction calls generalizing m with
  | nil => exact h
  | cons c cs ih =>
    rw [applyCalls_cons]
    exact ih (set_wall_preserves_true h c.x c.y c.dir c.present)

/-- Reciprocity propagated through an arbitrary sequence of calls. -/
lemma applyCalls_symm {m : Maze} (hs : MazeSymm m) (calls : List WallCall) :
    MazeSymm (applyCalls calls m) := by
  induction calls generalizing m with
  | nil => exact hs
  | cons c cs ih =>
    rw [applyCalls_cons]
    exact ih (set_wall_symm hs c.x c.y c.dir c.present)

end MouseGpt

namespace Tokens

lemma tokStep_F2 (m : Int) : tokStep m "F2" = m + 1 := rfl

lemma tokStep_F1 (m : Int) : tokStep m "F1" = m := rfl

lemma tokStep_F0 (m : Int) : tokStep m "F0" = m - 1 := rfl

lemma tokStep_BB (m : Int) : tokStep m "BB" = m - 2 := rfl

lemma SafeRun_single {m : Int} {t : String} (h : 0 ≤ m ∧ m ≤ 4)
    (h' : 0 ≤ tokStep m t ∧ tokStep m t ≤ 4) : SafeRun m [t] :=
  SafeRun_cons h.1 h.2 (SafeRun_nil h'.1 h'.2)

end Tokens

namespace MouseGpt

/-- Every branch of `plan_step_toward` ends by appending at least one token:
the planned step is never empty. -/
lemma plan_step_ne_nil (f d : Fin 4) (m : Int) :
    (plan_step_toward f d m).1 ≠ [] := by
  unfold plan_step_toward
  split_ifs <;> simp

lemma stop_go_ne_nil (fuel : Nat) (m : Int) (hm : 0 < m) (hf : 0 < fuel) :
    (stop_go fuel m).1 ≠ [] := by
  cases fuel with
  | zero => omega
  | succ k =>
    unfold stop_go
    rw [if_pos hm]
    split <;> simp

lemma stop_loop_ne_nil (m : Int) (hm : 0 < m) : (stop_loop m).1 ≠ [] :=
  stop_go_ne_nil (m.toNat + 1) m hm (by omega)

/-- One-step unfolding of `stop_go` at positive fuel. -/
lemma stop_go_succ (k : Nat) (m : Int) :
    stop_go (k + 1) m =
      if 0 < m then
        (if 2 ≤ m then ("BB" :: (stop_go k (m - 2)).1, (stop_go k (m - 2)).2)
         else ("F0" :: (stop_go k 0).1, (stop_go k 0).2))
      else ([], m) := rfl

/-- Full specification of the goal-stop loop: only braking tokens, and the
tracked and simulated momenta both land exactly at 0. -/
lemma stop_go_spec : ∀ (fuel : Nat) (m : Int), m.toNat < fuel →
    ((stop_go fuel m).2 = if 0 < m then 0 else m) ∧
      (∀ t ∈ (stop_go fuel m).1, t = "BB" ∨ t = "F0") ∧
      Tokens.runTok m (stop_go fuel m).1 = (stop_go fuel m).2 := by
  intro fuel
  induction fuel with
  | zero => intro m h; omega
  | succ k ih =>
    intro m h
    by_cases hm : 0 < m
    · by_cases h2 : 2 ≤ m
      · have hrec := ih (m - 2) (by omega)
        rw [stop_go_succ, if_pos hm, if_pos h2]
        refine ⟨?_, ?_, ?_⟩
        · simp only [hm, if_true]
          rw [hrec.1]
          split <;> omega
        · intro t ht
          rcases List.mem_cons.mp ht with ht | ht
          · exact Or.inl ht
          · exact hrec.2.1 t ht
        · rw [Tokens.runTok_cons, Tokens.tokStep_BB, hrec.2.2]
      · have hm1 : m = 1 := by omega
        subst hm1
        have hz : stop_go k 0 = ([], 0) := by
          cases k with
          | zero => omega
          | succ j => rw [stop_go_succ]; norm_num
        rw [stop_go_succ, if_pos hm, if_neg h2, hz]
        refine ⟨by norm_num, ?_, by simp [Tokens.runTok, Tokens.tokStep]⟩
        intro t ht
        simp at ht
        exact Or.inr ht
    · rw [stop_go_succ, if_neg hm]
      exact ⟨by simp [hm], by simp, by simp [Tokens.runTok]⟩

lemma stop_loop_spec (m : Int) :
    ((stop_loop m).2 = if 0 < m then 0 else m) ∧
      (∀ t ∈ (stop_loop m).1, t = "BB" ∨ t = "F0") ∧
      Tokens.runTok m (stop_loop m).1 = (stop_loop m).2 :=
  stop_go_spec (m.toNat + 1) m (by omega)

/-- `straight_token_for` tracks exactly the documented delta of the token it
returns, and keeps momentum in `[0, 4]` when it starts there. -/
lemma straight_token_spec (m : Int) (h0 : 0 ≤ m) (h4 : m ≤ 4) :
    (straight_token_for m).2 = Tokens.tokStep m (straight_token_for m).1 ∧
      0 ≤ (straight_token_for m).2 ∧ (straight_token_for m).2 ≤ 4 := by
  unfold straight_token_for TARGET_CRUISE MAX_ABS_M
  split_ifs with h1 h2
  · refine ⟨?_, ?_, ?_⟩
    · show min (m + 1) 4 = m + 1
      omega
    · show 0 ≤ min (m + 1) 4
      omega
    · show min (m + 1) 4 ≤ 4
      omega
  · refine ⟨?_, ?_, ?_⟩
    · show max (m - 1) 0 = m - 1
      omega
    · show 0 ≤ max (m - 1) 0
      omega
    · show max (m - 1) 0 ≤ 4
      omega
  · exact ⟨rfl, h0, h4⟩

lemma SafeRun_straight (m : Int) (h0 : 0 ≤ m) (h4 : m ≤ 4) :
    Tokens.SafeRun m [(straight_token_for m).1] := by
  obtain ⟨he, hl, hr⟩ := straight_token_spec m h0 h4
  exact Tokens.SafeRun_single ⟨h0, h4⟩ ⟨he ▸ hl, he ▸ hr⟩

end MouseGpt

namespace Mouse

lemma turn_in_place_ne_nil (d : String) (m : Int) (mt : Nat) (h : 0 < mt) :
    turn_in_place_tokens d m mt ≠ [] := by
  unfold turn_in_place_tokens
  rcases hb : brake_to_zero_tokens m mt with _ | ⟨t, ts⟩
  · simp [h]
  · by_cases hlen : ts.length + 1 < mt <;> simp [hlen]

lemma accel_ne_nil (m target : Int) (mt : Nat) (h : 0 < mt) :
    accel_forward_tokens m target mt ≠ [] := by
  dsimp only [accel_forward_tokens]
  split_ifs <;> simp_all

/-- `choose_instructions` never returns an empty batch. -/
lemma choose_instructions_ne_nil (b : MBody) :
    choose_instructions b ≠ [] := by
  dsimp only [choose_instructions]
  split_ifs <;>
    first
      | exact turn_in_place_ne_nil _ _ 3 (by omega)
      | exact turn_in_place_ne_nil _ _ 2 (by omega)
      | exact accel_ne_nil _ _ 2 (by omega)
      | simp_all

end Mouse

namespace MouseGpt

lemma dget_congr (dist : List (List Nat)) {a b x y : Int}
    (hx : a.toNat = x.toNat) (hy : b.toNat = y.toNat) :
    dget dist a b = dget dist x y := by
  unfold dget
  rw [hx, hy]

lemma getD_out_outer (dist : List (List Nat)) {n m : Nat}
    (hlen : dist.length ≤ n) : (dist.getD n []).getD m INF = INF := by
  rw [List.getD_eq_getElem?_getD dist n, List.getElem?_eq_none hlen,
    Option.getD_none]
  exact List.getD_nil

lemma getD_out_inner (row : List Nat) {m : Nat} (h : row.length ≤ m) :
    row.getD m INF = INF := by
  rw [List.getD_eq_getElem?_getD, List.getElem?_eq_none h]
  exact Option.getD_none

/-- A `dset` write leaves every entry either unchanged or (when the flat
indices coincide) equal to the written value. -/
lemma dget_dset (dist : List (List Nat)) (x y : Int) (v : Nat) (a b : Int) :
    dget (dset dist x y v) a b = dget dist a b ∨
      (a.toNat = x.toNat ∧ b.toNat = y.toNat ∧ dget (dset dist x y v) a b = v) := by
  unfold dget dset
  by_cases hx : x.toNat = a.toNat
  · by_cases hxr : x.toNat < dist.length
    · have hrow : (dist.set x.toNat ((dist.getD x.toNat []).set y.toNat v)).getD
          a.toNat [] = (dist.getD x.toNat []).set y.toNat v := by
        rw [List.getD_eq_getElem?_getD, List.getElem?_set, if_pos hx, if_pos hxr]
        rfl
      rw [hrow]
      by_cases hy : y.toNat = b.toNat
      · by_cases hyr : y.toNat < (dist.getD x.toNat []).length
        · right
          refine ⟨hx.symm, hy.symm, ?_⟩
          rw [List.getD_eq_getElem?_getD, List.getElem?_set, if_pos hy, if_pos hyr]
          rfl
        · left
          rw [List.getD_eq_getElem?_getD ((dist.getD x.toNat []).set y.toNat v),
            List.getElem?_set, if_pos hy, if_neg hyr, ← hx, ← hy]
          rw [List.getD_eq_getElem?_getD (dist.getD x.toNat []) y.toNat,
            List.getElem?_eq_none (by omega)]
      · left
        rw [List.getD_eq_getElem?_getD ((dist.getD x.toNat []).set y.toNat v),
          List.getElem?_set, if_neg hy,
          ← List.getD_eq_getElem?_getD, ← hx]
    · have hrow : (dist.set x.toNat ((dist.getD x.toNat []).set y.toNat v)).getD
          a.toNat [] = dist.getD a.toNat [] := by
        rw [List.getD_eq_getElem?_getD, List.getElem?_set, if_pos hx, if_neg hxr]
        rw [List.getD_eq_getElem?_getD dist, ← hx, List.getElem?_eq_none (by omega)]
      rw [hrow]
      left
      rfl
  · have hrow : (dist.set x.toNat ((dist.getD x.toNat []).set y.toNat v)).getD
        a.toNat [] = dist.getD a.toNat [] := by
      rw [List.getD_eq_getElem?_getD, List.getElem?_set, if_neg hx,
        ← List.getD_eq_getElem?_getD]
    rw [hrow]
    left
    rfl

/-- Invariant: every goal cell keeps distance 0. -/
def GoalZero (dist : List (List Nat)) : Prop :=
  ∀ c ∈ GOAL_CELLS, dget dist c.1 c.2 = 0

/-- Invariant: only goal cells ever hold distance 0. -/
def ZeroGoal (dist : List (List Nat)) : Prop :=
  ∀ x y : Int, dget dist x y = 0 → (x, y) ∈ GOAL_CELLS

/-- `bfs_relax` either leaves the array alone or writes `d+1` under the
strict-improvement guard. -/
lemma bfs_relax_fst (m : Maze) (x y : Int) (d : Fin 4)
    (s : List (List Nat) × List (Int × Int)) :
    (bfs_relax m x y d s).1 = s.1 ∨
      ((bfs_relax m x y d s).1 =
          dset s.1 (x + DX d) (y + DY d) (dget s.1 x y + 1) ∧
        dget s.1 x y + 1 < dget s.1 (x + DX d) (y + DY d)) := by
  dsimp only [bfs_relax]
  split_ifs <;>
    first
      | (left; rfl)
      | (right; exact ⟨rfl, by assumption⟩)

lemma bfs_relax_inv (m : Maze) (x y : Int) (d : Fin 4)
    (s : List (List Nat) × List (Int × Int))
    (h1 : GoalZero s.1) (h2 : ZeroGoal s.1) :
    GoalZero (bfs_relax m x y d s).1 ∧ ZeroGoal (bfs_relax m x y d s).1 := by
  rcases bfs_relax_fst m x y d s with hs | ⟨hs, hlt⟩
  · rw [hs]
    exact ⟨h1, h2⟩
  · rw [hs]
    constructor
    · intro c hc
      rcases dget_dset s.1 (x + DX d) (y + DY d) (dget s.1 x y + 1) c.1 c.2 with
        hsame | ⟨hxx, hyy, _⟩
      · rw [hsame]
        exact h1 c hc
      · exfalso
        have heq : dget s.1 (x + DX d) (y + DY d) = dget s.1 c.1 c.2 :=
          dget_congr s.1 hxx.symm hyy.symm
        rw [heq, h1 c hc] at hlt
        omega
    · intro a b hab
      rcases dget_dset s.1 (x + DX d) (y + DY d) (dget s.1 x y + 1) a b with
        hsame | ⟨_, _, hv⟩
      · exact h2 a b (hsame ▸ hab)
      · rw [hv] at hab
        omega

lemma bfs_step_inv (m : Maze) (x y : Int) (dist : List (List Nat))
    (q : List (Int × Int)) (h1 : GoalZero dist) (h2 : ZeroGoal dist) :
    GoalZero (bfs_step m x y dist q).1 ∧ ZeroGoal (bfs_step m x y dist q).1 := by
  unfold bfs_step
  have key : ∀ (l : List (Fin 4)) (s : List (List Nat) × List (Int × Int)),
      GoalZero s.1 → ZeroGoal s.1 →
      GoalZero (l.foldl (fun s d => bfs_relax m x y d s) s).1 ∧
        ZeroGoal (l.foldl (fun s d => bfs_relax m x y d s) s).1 := by
    intro l
    induction l with
    | nil => intro s hs1 hs2; exact ⟨hs1, hs2⟩
    | cons d ds ih =>
      intro s hs1 hs2
      have h := bfs_relax_inv m x y d s hs1 hs2
      exact ih _ h.1 h.2
  exact key _ _ h1 h2

lemma bfs_loop_inv (m : Maze) : ∀ (fuel : Nat) (dist : List (List Nat))
    (q : List (Int × Int)), GoalZero dist → ZeroGoal dist →
    GoalZero (bfs_loop m fuel dist q) ∧ ZeroGoal (bfs_loop m fuel dist q) := by
  intro fuel
  induction fuel with
  | zero => intro dist q h1 h2; exact ⟨h1, h2⟩
  | succ k ih =>
    intro dist q h1 h2
    match q with
    | [] => exact ⟨h1, h2⟩
    | (x, y) :: q' =>
      have h := bfs_step_inv m x y dist q' h1 h2
      exact ih _ _ h.1 h.2

/-- The seeded initial array of `compute_distance_field`. -/
def seededD : List (List Nat) :=
  GOAL_CELLS.foldl (fun dist c => dset dist c.1 c.2 0)
    (List.replicate 16 (List.replicate 16 INF))

lemma cdf_eq (m : Maze) :
    compute_distance_field m = bfs_loop m BFS_FUEL seededD GOAL_CELLS := rfl

lemma seededD_goal_zero : GoalZero seededD := by
  unfold GoalZero
  decide

lemma seededD_zero_goal : ZeroGoal seededD := by
  have hinf : INF ≠ 0 := by decide
  have hlen16 : seededD.length = 16 := by decide
  have key2 : ∀ a : Nat, a < 16 → (seededD.getD a []).length = 16 := by decide
  have key : ∀ a : Nat, a < 16 → ∀ b : Nat, b < 16 →
      ((seededD.getD a []).getD b INF = 0 →
        ((a = 7 ∨ a = 8) ∧ (b = 7 ∨ b = 8))) := by decide
  intro x y h
  unfold dget at h
  by_cases hx : x.toNat < 16
  · by_cases hy : y.toNat < 16
    · have hk := key x.toNat hx y.toNat hy h
      have hx7 : x = 7 ∨ x = 8 := by omega
      have hy7 : y = 7 ∨ y = 8 := by omega
      rcases hx7 with rfl | rfl <;> rcases hy7 with rfl | rfl <;> decide
    · rw [getD_out_inner _ (by rw [key2 x.toNat hx]; omega)] at h
      exact absurd h hinf
  · rw [getD_out_outer _ (by omega)] at h
    exact absurd h hinf

lemma cdf_inv (m : Maze) :
    GoalZero (compute_distance_field m) ∧ ZeroGoal (compute_distance_field m) := by
  rw [cdf_eq]
  exact bfs_loop_inv m BFS_FUEL seededD GOAL_CELLS seededD_goal_zero seededD_zero_goal

/-- The distance field is 0 at a cell exactly when the cell is a goal cell. -/
lemma dget_cdf_zero_iff (m : Maze) (x y : Int) :
    dget (compute_distance_field m) x y = 0 ↔ (x, y) ∈ GOAL_CELLS := by
  constructor
  · exact fun h => (cdf_inv m).2 x y h
  · intro h
    exact (cdf_inv m).1 (x, y) h

end MouseGpt

namespace App

lemma VEC_ne_zero : ∀ d : D4, (SIDE_VEC d).1 ≠ 0 ∨ (SIDE_VEC d).2 ≠ 0 := by decide

lemma SIDE_VEC_BACK_1 : ∀ d : D4, (SIDE_VEC (BACK d)).1 = -(SIDE_VEC d).1 := by decide

lemma SIDE_VEC_BACK_2 : ∀ d : D4, (SIDE_VEC (BACK d)).2 = -(SIDE_VEC d).2 := by decide

lemma BACK_BACK : ∀ d : D4, BACK (BACK d) = d := by decide

lemma in_bounds_iff {x y : Int} :
    in_bounds x y = true ↔ 0 ≤ x ∧ x < 16 ∧ 0 ≤ y ∧ y < 16 := by
  simp [in_bounds]
  tauto

lemma addWall_self (w : Int × Int × D4 → Bool) (e : Int × Int × D4) :
    addWall w e e = true := by
  simp [addWall]

lemma addWall_ne (w : Int × Int × D4 → Bool) {e e' : Int × Int × D4}
    (h : e' ≠ e) : addWall w e e' = w e' := by
  simp [addWall, h]

lemma addWall_mono (w : Int × Int × D4 → Bool) (e e' : Int × Int × D4)
    (h : w e' = true) : addWall w e e' = true := by
  by_cases he : e' = e <;> simp [addWall, he, h]

/-- `mark_wall` with its lets inlined. -/
lemma mark_wall_walls (st : MouseState) (side : Side) :
    (mark_wall st side).walls =
      (if in_bounds (st.cell.1 + (SIDE_VEC (side_dir st.heading side)).1)
          (st.cell.2 + (SIDE_VEC (side_dir st.heading side)).2) then
        addWall (addWall st.walls (st.cell.1, st.cell.2, side_dir st.heading side))
          (st.cell.1 + (SIDE_VEC (side_dir st.heading side)).1,
           st.cell.2 + (SIDE_VEC (side_dir st.heading side)).2,
           BACK (side_dir st.heading side))
      else addWall st.walls (st.cell.1, st.cell.2, side_dir st.heading side)) := rfl

/-- Reciprocity for app.py's wall set: for adjacent in-bounds cells the edge
toward the neighbor is stored exactly when the neighbor's reciprocal edge is. -/
def WallsSymm (w : Int × Int × D4 → Bool) : Prop :=
  ∀ x y : Int, ∀ d : D4, in_bounds x y = true →
    in_bounds (x + (SIDE_VEC d).1) (y + (SIDE_VEC d).2) = true →
    w (x, y, d) = w (x + (SIDE_VEC d).1, y + (SIDE_VEC d).2, BACK d)

/-- A pre-seeded boundary edge always faces out of the grid. -/
lemma boundary_oob {x y : Int} {d : D4} (h : BOUNDARY_WALLS (x, y, d) = true) :
    ¬(in_bounds (x + (SIDE_VEC d).1) (y + (SIDE_VEC d).2) = true) := by
  intro hin
  rw [in_bounds_iff] at hin
  cases d <;> simp [BOUNDARY_WALLS, SIDE_VEC] at h hin <;> omega

lemma boundary_symm : WallsSymm BOUNDARY_WALLS := by
  intro x y d hin hnb
  cases hB : BOUNDARY_WALLS (x, y, d) with
  | true => exact absurd hnb (boundary_oob hB)
  | false =>
    cases hB2 : BOUNDARY_WALLS (x + (SIDE_VEC d).1, y + (SIDE_VEC d).2, BACK d) with
    | true =>
      exfalso
      have hoob := boundary_oob hB2
      rw [SIDE_VEC_BACK_1, SIDE_VEC_BACK_2] at hoob
      have hx : x + (SIDE_VEC d).1 + -(SIDE_VEC d).1 = x := by ring
      have hy : y + (SIDE_VEC d).2 + -(SIDE_VEC d).2 = y := by ring
      rw [hx, hy] at hoob
      exact hoob hin
    | false => rfl

/-- `_mark_wall` preserves reciprocity. -/
lemma mark_wall_symm {st : MouseState} (hs : WallsSymm st.walls) (side : Side) :
    WallsSymm (mark_wall st side).walls := by
  intro a b e ha hab
  rw [mark_wall_walls]
  have hE12 : ((st.cell.1, st.cell.2, side_dir st.heading side) : Int × Int × D4) ≠
      (st.cell.1 + (SIDE_VEC (side_dir st.heading side)).1,
       st.cell.2 + (SIDE_VEC (side_dir st.heading side)).2,
       BACK (side_dir st.heading side)) := by
    intro hcon
    rw [Prod.mk.injEq, Prod.mk.injEq] at hcon
    rcases VEC_ne_zero (side_dir st.heading side) with h' | h'
    · exact h' (by omega)
    · exact h' (by omega)
  by_cases hnb : in_bounds (st.cell.1 + (SIDE_VEC (side_dir st.heading side)).1)
      (st.cell.2 + (SIDE_VEC (side_dir st.heading side)).2) = true
  · rw [if_pos hnb]
    by_cases hE1 : ((a, b, e) : Int × Int × D4) =
        (st.cell.1, st.cell.2, side_dir st.heading side)
    · rw [Prod.mk.injEq, Prod.mk.injEq] at hE1
      obtain ⟨h1, h2, h3⟩ := hE1
      subst h1; subst h2; subst h3
      rw [addWall_ne _ hE12, addWall_self, addWall_self]
    · by_cases hE2 : ((a, b, e) : Int × Int × D4) =
          (st.cell.1 + (SIDE_VEC (side_dir st.heading side)).1,
           st.cell.2 + (SIDE_VEC (side_dir st.heading side)).2,
           BACK (side_dir st.heading side))
      · rw [Prod.mk.injEq, Prod.mk.injEq] at hE2
        obtain ⟨h1, h2, h3⟩ := hE2
        subst h1; subst h2; subst h3
        rw [addWall_self]
        have hP : ((st.cell.1 + (SIDE_VEC (side_dir st.heading side)).1 +
            (SIDE_VEC (BACK (side_dir st.heading side))).1,
            st.cell.2 + (SIDE_VEC (side_dir st.heading side)).2 +
            (SIDE_VEC (BACK (side_dir st.heading side))).2,
            BACK (BACK (side_dir st.heading side))) : Int × Int × D4) =
            (st.cell.1, st.cell.2, side_dir st.heading side) := by
          rw [SIDE_VEC_BACK_1, SIDE_VEC_BACK_2, BACK_BACK, Prod.mk.injEq, Prod.mk.injEq]
          refine ⟨by ring, by ring, rfl⟩
        rw [hP, addWall_ne _ hE12, addWall_self]
      · have hP1 : ((a + (SIDE_VEC e).1, b + (SIDE_VEC e).2, BACK e) :
            Int × Int × D4) ≠ (st.cell.1, st.cell.2, side_dir st.heading side) := by
          intro hcon
          rw [Prod.mk.injEq, Prod.mk.injEq] at hcon
          obtain ⟨q1, q2, q3⟩ := hcon
          apply hE2
          have he : e = BACK (side_dir st.heading side) := by
            rw [← BACK_BACK e, q3]
          subst he
          rw [SIDE_VEC_BACK_1] at q1
          rw [SIDE_VEC_BACK_2] at q2
          rw [Prod.mk.injEq, Prod.mk.injEq]
          exact ⟨by omega, by omega, rfl⟩
        have hP2 : ((a + (SIDE_VEC e).1, b + (SIDE_VEC e).2, BACK e) :
            Int × Int × D4) ≠
            (st.cell.1 + (SIDE_VEC (side_dir st.heading side)).1,
             st.cell.2 + (SIDE_VEC (side_dir st.heading side)).2,
             BACK (side_dir st.heading side)) := by
          intro hcon
          rw [Prod.mk.injEq, Prod.mk.injEq] at hcon
          obtain ⟨q1, q2, q3⟩ := hcon
          apply hE1
          have he : e = side_dir st.heading side := by
            have hq := congrArg BACK q3
            rwa [BACK_BACK, BACK_BACK] at hq
          subst he
          rw [Prod.mk.injEq, Prod.mk.injEq]
          exact ⟨by omega, by omega, rfl⟩
        rw [addWall_ne _ hE2, addWall_ne _ hE1, addWall_ne _ hP2, addWall_ne _ hP1]
        exact hs a b e ha hab
  · rw [if_neg hnb]
    by_cases hE1 : ((a, b, e) : Int × Int × D4) =
        (st.cell.1, st.cell.2, side_dir st.heading side)
    · exfalso
      rw [Prod.mk.injEq, Prod.mk.injEq] at hE1
      obtain ⟨h1, h2, h3⟩ := hE1
      subst h1; subst h2; subst h3
      exact hnb hab
    · by_cases hP1 : ((a + (SIDE_VEC e).1, b + (SIDE_VEC e).2, BACK e) :
          Int × Int × D4) = (st.cell.1, st.cell.2, side_dir st.heading side)
      · exfalso
        rw [Prod.mk.injEq, Prod.mk.injEq] at hP1
        obtain ⟨q1, q2, q3⟩ := hP1
        have he : e = BACK (side_dir st.heading side) := by
          rw [← BACK_BACK e, q3]
        subst he
        rw [SIDE_VEC_BACK_1] at q1
        rw [SIDE_VEC_BACK_2] at q2
        have hax : a = st.cell.1 + (SIDE_VEC (side_dir st.heading side)).1 := by omega
        have hby : b = st.cell.2 + (SIDE_VEC (side_dir st.heading side)).2 := by omega
        rw [hax, hby] at ha
        exact hnb ha
      · rw [addWall_ne _ hE1, addWall_ne _ hP1]
        exact hs a b e ha hab

/-- One recorded `_mark_wall` call: the cell, its heading, the sensed side. -/
def applyMarks (calls : List ((Int × Int) × D4 × Side))
    (w : Int × Int × D4 → Bool) : Int × Int × D4 → Bool :=
  calls.foldl (fun w c => (mark_wall ⟨c.1, c.2.1, 0, w⟩ c.2.2).walls) w

lemma applyMarks_symm {w : Int × Int × D4 → Bool} (hs : WallsSymm w)
    (calls : List ((Int × Int) × D4 × Side)) : WallsSymm (applyMarks calls w) := by
  induction calls generalizing w with
  | nil => exact hs
  | cons c cs ih =>
    exact ih (@mark_wall_symm ⟨c.1, c.2.1, 0, w⟩ hs c.2.2)

lemma mark_wall_mono {st : MouseState} {e : Int × Int × D4}
    (h : st.walls e = true) (side : Side) : (mark_wall st side).walls e = true := by
  rw [mark_wall_walls]
  split_ifs
  · exact addWall_mono _ _ _ (addWall_mono _ _ _ h)
  · exact addWall_mono _ _ _ h

lemma mark_wall_records (st : MouseState) (side : Side) :
    (mark_wall st side).walls
      (st.cell.1, st.cell.2, side_dir st.heading side) = true := by
  rw [mark_wall_walls]
  split_ifs
  · exact addWall_mono _ _ _ (addWall_self _ _)
  · exact addWall_self _ _

lemma applyMarks_mono {w : Int × Int × D4 → Bool} {e : Int × Int × D4}
    (h : w e = true) (calls : List ((Int × Int) × D4 × Side)) :
    applyMarks calls w e = true := by
  induction calls generalizing w with
  | nil => exact h
  | cons c cs ih =>
    exact ih (@mark_wall_mono ⟨c.1, c.2.1, 0, w⟩ e h c.2.2)

end App

namespace MouseGpt

lemma optLe_refl (a : NavOption) : optLe a a = true := by
  simp [optLe]

lemma optLe_total (a b : NavOption) : optLe a b = true ∨ optLe b a = true := by
  simp [optLe]
  omega

lemma optLe_trans {a b c : NavOption} (h1 : optLe a b = true)
    (h2 : optLe b c = true) : optLe a c = true := by
  simp [optLe] at h1 h2 ⊢
  omega

lemma sortOpts_length : ∀ l : List NavOption, (sortOpts l).length = l.length := by
  have hord : ∀ (a : NavOption) (l : List NavOption),
      (ordIns a l).length = l.length + 1 := by
    intro a l
    induction l with
    | nil => rfl
    | cons b bs ih =>
      unfold ordIns
      split_ifs <;> simp [ih]
  intro l
  induction l with
  | nil => rfl
  | cons a as ih =>
    show (ordIns a (sortOpts as)).length = as.length + 1
    rw [hord, ih]

lemma mem_ordIns {x a : NavOption} : ∀ {l : List NavOption},
    x ∈ ordIns a l ↔ x = a ∨ x ∈ l := by
  intro l
  induction l with
  | nil => simp [ordIns]
  | cons b bs ih =>
    unfold ordIns
    split_ifs
    · simp
    · simp only [List.mem_cons, ih]
      tauto

lemma mem_sortOpts {x : NavOption} : ∀ {l : List NavOption},
    x ∈ sortOpts l ↔ x ∈ l := by
  intro l
  induction l with
  | nil => simp [sortOpts]
  | cons a as ih =>
    show x ∈ ordIns a (sortOpts as) ↔ _
    rw [mem_ordIns, ih]
    simp

/-- The head of the sorted option list is `optLe`-below every list element:
the first sorted option is a `(score, pref)`-minimal candidate. -/
lemma sortOpts_head_min : ∀ (l : List NavOption) (h : NavOption)
    (t : List NavOption), sortOpts l = h :: t → ∀ a ∈ l, optLe h a = true := by
  intro l
  induction l with
  | nil => intro h t hcon; simp [sortOpts] at hcon
  | cons x l' ih =>
    intro h t hs a ha
    have hs' : ordIns x (sortOpts l') = h :: t := hs
    rcases hsort : sortOpts l' with _ | ⟨h', t'⟩
    · have hl' : l' = [] := by
        have hlen := sortOpts_length l'
        rw [hsort] at hlen
        exact List.length_eq_zero.mp hlen.symm
      subst hl'
      rw [hsort] at hs'
      unfold ordIns at hs'
      cases hs'
      rcases List.mem_cons.mp ha with rfl | ha'
      · exact optLe_refl a
      · simp at ha'
    · rw [hsort] at hs'
      unfold ordIns at hs'
      by_cases hxh : optLe x h' = true
      · rw [if_pos hxh] at hs'
        cases hs'
        rcases List.mem_cons.mp ha with rfl | ha'
        · exact optLe_refl a
        · have hmem : a ∈ sortOpts l' := mem_sortOpts.mpr ha'
          rw [hsort] at hmem
          rcases List.mem_cons.mp hmem with rfl | hmem'
          · exact hxh
          · have hh'a : optLe h' a = true := ih h' t' hsort a ha'
            exact optLe_trans hxh hh'a
      · rw [if_neg hxh] at hs'
        injection hs' with hh ht
        rcases List.mem_cons.mp ha with rfl | ha'
        · rw [← hh]
          rcases optLe_total a h' with hc2 | hc2
          · exact absurd hc2 hxh
          · exact hc2
        · rw [← hh]
          exact ih h' t' hsort a ha'

lemma mem_dirs : ∀ d : Fin 4, d ∈ ([0, 1, 2, 3] : List (Fin 4)) := by decide

lemma foldr_opt_mem (c : Fin 4 → Bool) (f : Fin 4 → NavOption) :
    ∀ (l : List (Fin 4)) (o : NavOption),
      (o ∈ l.foldr (fun d acc => if c d then f d :: acc else acc) []) ↔
        ∃ d ∈ l, c d = true ∧ o = f d := by
  intro l
  induction l with
  | nil => simp
  | cons d ds ih =>
    intro o
    simp only [List.foldr_cons]
    split_ifs with hc
    · simp only [List.mem_cons, ih]
      constructor
      · rintro (rfl | ⟨d', hd', hcd', rfl⟩)
        · exact ⟨d, by simp, hc, rfl⟩
        · exact ⟨d', by simp [hd'], hcd', rfl⟩
      · rintro ⟨d', hd', hcd', rfl⟩
        rcases hd' with rfl | hd''
        · exact Or.inl rfl
        · exact Or.inr ⟨d', hd'', hcd', rfl⟩
    · rw [ih]
      constructor
      · rintro ⟨d', hd', hcd', rfl⟩
        exact ⟨d', by simp [hd'], hcd', rfl⟩
      · rintro ⟨d', hd', hcd', rfl⟩
        rcases List.mem_cons.mp hd' with rfl | hd''
        · exact absurd hcd' (by simp [hc])
        · exact ⟨d', hd'', hcd', rfl⟩

/-- `choose_next_cell` returns a candidate direction whose `(score, pref)`
key is minimal among all candidates (ties resolved by the sort key, i.e.
straight before left before right before back at equal distance). -/
lemma choose_next_cell_spec (gs : GameState) (dist : List (List Nat))
    (d0 : Fin 4) (hc : nav_cand gs.maze gs.pose.x gs.pose.y d0 = true) :
    ∃ dres : Fin 4,
      choose_next_cell gs dist =
        (gs.pose.x + DX dres, gs.pose.y + DY dres, dres) ∧
      nav_cand gs.maze gs.pose.x gs.pose.y dres = true ∧
      ∀ d : Fin 4, nav_cand gs.maze gs.pose.x gs.pose.y d = true →
        optLe (nav_opt dist gs.pose.facing gs.pose.x gs.pose.y dres)
          (nav_opt dist gs.pose.facing gs.pose.x gs.pose.y d) = true := by
  have hceq : choose_next_cell gs dist =
      (match sortOpts (([0, 1, 2, 3] : List (Fin 4)).foldr (fun d acc =>
        if nav_cand gs.maze gs.pose.x gs.pose.y d then
          nav_opt dist gs.pose.facing gs.pose.x gs.pose.y d :: acc
        else acc) []) with
      | [] => (gs.pose.x, gs.pose.y, LEFT gs.pose.facing)
      | (_, _, d, nx, ny) :: _ => (nx, ny, d)) := rfl
  have hmem0 : nav_opt dist gs.pose.facing gs.pose.x gs.pose.y d0 ∈
      ([0, 1, 2, 3] : List (Fin 4)).foldr (fun d acc =>
        if nav_cand gs.maze gs.pose.x gs.pose.y d then
          nav_opt dist gs.pose.facing gs.pose.x gs.pose.y d :: acc
        else acc) [] := by
    rw [foldr_opt_mem]
    exact ⟨d0, mem_dirs d0, hc, rfl⟩
  have hmem0s := mem_sortOpts.mpr hmem0
  rcases hsort : sortOpts (([0, 1, 2, 3] : List (Fin 4)).foldr (fun d acc =>
      if nav_cand gs.maze gs.pose.x gs.pose.y d then
        nav_opt dist gs.pose.facing gs.pose.x gs.pose.y d :: acc
      else acc) []) with _ | ⟨h, t⟩
  · rw [hsort] at hmem0s
    simp at hmem0s
  · have hhead : h ∈ sortOpts (([0, 1, 2, 3] : List (Fin 4)).foldr (fun d acc =>
        if nav_cand gs.maze gs.pose.x gs.pose.y d then
          nav_opt dist gs.pose.facing gs.pose.x gs.pose.y d :: acc
        else acc) []) := by
      rw [hsort]
      simp
    have hheadl := mem_sortOpts.mp hhead
    rw [foldr_opt_mem] at hheadl
    obtain ⟨dres, _, hcres, hform⟩ := hheadl
    refine ⟨dres, ?_, hcres, ?_⟩
    · rw [hceq, hsort, hform]
      rfl
    · intro d hd
      have hmemd : nav_opt dist gs.pose.facing gs.pose.x gs.pose.y d ∈
          ([0, 1, 2, 3] : List (Fin 4)).foldr (fun d acc =>
            if nav_cand gs.maze gs.pose.x gs.pose.y d then
              nav_opt dist gs.pose.facing gs.pose.x gs.pose.y d :: acc
            else acc) [] := by
        rw [foldr_opt_mem]
        exact ⟨d, mem_dirs d, hd, rfl⟩
      have := sortOpts_head_min _ h t hsort _ hmemd
      rw [hform] at this
      exact this

end MouseGpt

namespace App

/-- Candidate test of `_choose_next_dir`: in-bounds neighbor, no known wall
from the current cell. -/
def cnd_cand (st : MouseState) (dirc : D4) : Bool :=
  in_bounds (st.cell.1 + (SIDE_VEC dirc).1) (st.cell.2 + (SIDE_VEC dirc).2) &&
    !has_wall st (st.cell.1, st.cell.2) dirc

/-- The flood value `_choose_next_dir` compares for a direction. -/
def cnd_val (st : MouseState) (dist : List (List Nat)) (dirc : D4) : Nat :=
  dget dist (st.cell.1 + (SIDE_VEC dirc).1) (st.cell.2 + (SIDE_VEC dirc).2)

/-- The loop body of `_choose_next_dir`. -/
def cnd_step (st : MouseState) (dist : List (List Nat))
    (b : Option D4 × Nat) (dirc : D4) : Option D4 × Nat :=
  let v := SIDE_VEC dirc
  let nx := st.cell.1 + v.1
  let ny := st.cell.2 + v.2
  if ¬in_bounds nx ny then b
  else if has_wall st (st.cell.1, st.cell.2) dirc then b
  else if dget dist nx ny < b.2 then (some dirc, dget dist nx ny)
  else b

lemma choose_next_dir_eq (st : MouseState) (dist : List (List Nat)) :
    choose_next_dir st dist = (SIDES.foldl (cnd_step st dist) (none, 10 ^ 9)).1 := rfl

lemma cnd_step_cases (st : MouseState) (dist : List (List Nat))
    (b : Option D4 × Nat) (dirc : D4) :
    (cnd_step st dist b dirc = b ∧
      (cnd_cand st dirc = false ∨ ¬(cnd_val st dist dirc < b.2))) ∨
    (cnd_step st dist b dirc = (some dirc, cnd_val st dist dirc) ∧
      cnd_cand st dirc = true ∧ cnd_val st dist dirc < b.2) := by
  by_cases h1 : in_bounds (st.cell.1 + (SIDE_VEC dirc).1)
      (st.cell.2 + (SIDE_VEC dirc).2) = true
  · by_cases h2 : has_wall st (st.cell.1, st.cell.2) dirc = true
    · have heq : cnd_step st dist b dirc = b := by
        dsimp only [cnd_step]
        rw [if_neg (not_not_intro h1), if_pos h2]
      exact Or.inl ⟨heq, Or.inl (by simp [cnd_cand, h2])⟩
    · by_cases h3 : dget dist (st.cell.1 + (SIDE_VEC dirc).1)
          (st.cell.2 + (SIDE_VEC dirc).2) < b.2
      · have heq : cnd_step st dist b dirc = (some dirc, cnd_val st dist dirc) := by
          dsimp only [cnd_step]
          rw [if_neg (not_not_intro h1), if_neg h2, if_pos h3]
          rfl
        refine Or.inr ⟨heq, ?_, by simpa [cnd_val] using h3⟩
        simp [cnd_cand, h1, h2]
      · have heq : cnd_step st dist b dirc = b := by
          dsimp only [cnd_step]
          rw [if_neg (not_not_intro h1), if_neg h2, if_neg h3]
        exact Or.inl ⟨heq, Or.inr (by simpa [cnd_val] using h3)⟩
  · have heq : cnd_step st dist b dirc = b := by
      dsimp only [cnd_step]
      rw [if_pos h1]
    have hb : in_bounds (st.cell.1 + (SIDE_VEC dirc).1)
        (st.cell.2 + (SIDE_VEC dirc).2) = false := by
      simpa using h1
    exact Or.inl ⟨heq, Or.inl (by simp [cnd_cand, hb])⟩

/-- Accumulator invariant of the `_choose_next_dir` scan over a processed
list `p`: either nothing improved yet, or the best is the first candidate
attaining the minimum over `p`. -/
def CndAcc (st : MouseState) (dist : List (List Nat)) (p : List D4)
    (acc : Option D4 × Nat) : Prop :=
  (acc = (none, 10 ^ 9) ∧
    ∀ d ∈ p, cnd_cand st d = true → ¬(cnd_val st dist d < 10 ^ 9)) ∨
  (∃ db p1 p2, acc = (some db, cnd_val st dist db) ∧ cnd_cand st db = true ∧
    cnd_val st dist db < 10 ^ 9 ∧ p = p1 ++ db :: p2 ∧
    (∀ d ∈ p1, cnd_cand st d = true → cnd_val st dist db < cnd_val st dist d) ∧
    (∀ d ∈ p2, cnd_cand st d = true → cnd_val st dist db ≤ cnd_val st dist d))

lemma cnd_step_acc {st : MouseState} {dist : List (List Nat)} {p : List D4}
    {acc : Option D4 × Nat} (hInv : CndAcc st dist p acc) (dirc : D4) :
    CndAcc st dist (p ++ [dirc]) (cnd_step st dist acc dirc) := by
  rcases cnd_step_cases st dist acc dirc with ⟨heq, hno⟩ | ⟨heq, hcand, hlt⟩
  · rw [heq]
    rcases hInv with ⟨hacc, hall⟩ | ⟨db, p1, p2, hacc, hcand', hv, hp, hstrict, hweak⟩
    · left
      refine ⟨hacc, ?_⟩
      intro d hd hcd
      rcases List.mem_append.mp hd with hd' | hd'
      · exact hall d hd' hcd
      · have hdd : d = dirc := by simpa using hd'
        subst hdd
        rcases hno with hno | hno
        · rw [hcd] at hno
          cases hno
        · rw [hacc] at hno
          exact hno
    · right
      refine ⟨db, p1, p2 ++ [dirc], hacc, hcand', hv, ?_, hstrict, ?_⟩
      · rw [hp, List.append_assoc]
        rfl
      · intro d hd hcd
        rcases List.mem_append.mp hd with hd' | hd'
        · exact hweak d hd' hcd
        · have hdd : d = dirc := by simpa using hd'
          subst hdd
          rcases hno with hno | hno
          · rw [hcd] at hno
            cases hno
          · rw [hacc] at hno
            omega
  · rw [heq]
    right
    have hvlt : cnd_val st dist dirc < 10 ^ 9 := by
      rcases hInv with ⟨hacc, _⟩ | ⟨db, _, _, hacc, _, hv, _, _, _⟩
      · rw [hacc] at hlt
        exact hlt
      · rw [hacc] at hlt
        exact lt_trans hlt hv
    refine ⟨dirc, p, [], rfl, hcand, hvlt, by simp, ?_, by simp⟩
    intro d hd hcd
    rcases hInv with ⟨hacc, hall⟩ | ⟨db, p1, p2, hacc, hcand', hv, hp, hstrict, hweak⟩
    · rw [hacc] at hlt
      have := hall d hd hcd
      omega
    · rw [hacc] at hlt
      rw [hp] at hd
      rcases List.mem_append.mp hd with hd' | hd'
      · have := hstrict d hd' hcd
        omega
      · rcases List.mem_cons.mp hd' with rfl | hd''
        · exact hlt
        · have := hweak d hd'' hcd
          omega

lemma cnd_foldl_acc (st : MouseState) (dist : List (List Nat)) :
    ∀ (l p : List D4) (acc : Option D4 × Nat), CndAcc st dist p acc →
      CndAcc st dist (p ++ l) (l.foldl (cnd_step st dist) acc) := by
  intro l
  induction l with
  | nil => intro p acc h; simpa using h
  | cons d ds ih =>
    intro p acc h
    have h1 := cnd_step_acc h d
    have h2 := ih (p ++ [d]) _ h1
    rw [List.append_assoc] at h2
    simpa using h2

/-- `_choose_next_dir` characterized: when it returns a direction, that
direction is a candidate of minimal flood value, and every candidate placed
earlier in the fixed `['N','E','S','W']` scan has a strictly larger value —
ties go to the earliest direction in scan order, not to the heading. -/
lemma choose_next_dir_spec (st : MouseState) (dist : List (List Nat)) :
    (choose_next_dir st dist = none ∧
      ∀ d ∈ SIDES, cnd_cand st d = true → ¬(cnd_val st dist d < 10 ^ 9)) ∨
    (∃ db p1 p2, choose_next_dir st dist = some db ∧ cnd_cand st db = true ∧
      SIDES = p1 ++ db :: p2 ∧
      (∀ d ∈ p1, cnd_cand st d = true → cnd_val st dist db < cnd_val st dist d) ∧
      (∀ d ∈ p2, cnd_cand st d = true → cnd_val st dist db ≤ cnd_val st dist d)) := by
  have hbase : CndAcc st dist [] (none, 10 ^ 9) := Or.inl ⟨rfl, by simp⟩
  have hfin := cnd_foldl_acc st dist SIDES [] (none, 10 ^ 9) hbase
  rw [List.nil_append] at hfin
  rcases hfin with ⟨hacc, hall⟩ | ⟨db, p1, p2, hacc, hcand, hv, hp, hstrict, hweak⟩
  · left
    rw [choose_next_dir_eq, hacc]
    exact ⟨rfl, hall⟩
  · right
    refine ⟨db, p1, p2, ?_, hcand, hp, hstrict, hweak⟩
    rw [choose_next_dir_eq, hacc]

end App

namespace App

lemma forward_one_cell_ne_nil (st : MouseState) :
    (forward_one_cell st).1 ≠ [] := by
  dsimp only [forward_one_cell]
  split_ifs <;> simp

lemma stride_loop_acc : ∀ (n : Nat) (st : MouseState) (acc : List String),
    ∃ rest, (stride_loop n st acc).1 = acc ++ rest ∧ (0 < n → rest ≠ []) := by
  intro n
  induction n with
  | zero =>
    intro st acc
    exact ⟨[], by simp [stride_loop], by omega⟩
  | succ k ih =>
    intro st acc
    show ∃ rest, (if (finish_if_goal (forward_one_cell st).2).1 ≠ [] then
        (acc ++ (forward_one_cell st).1 ++ (finish_if_goal (forward_one_cell st).2).1,
          (finish_if_goal (forward_one_cell st).2).2)
      else stride_loop k (finish_if_goal (forward_one_cell st).2).2
        (acc ++ (forward_one_cell st).1)).1 = acc ++ rest ∧ (0 < k + 1 → rest ≠ [])
    split_ifs with hf
    · refine ⟨(forward_one_cell st).1 ++ (finish_if_goal (forward_one_cell st).2).1,
        by simp, ?_⟩
      intro _
      have := forward_one_cell_ne_nil st
      intro hcon
      rcases List.append_eq_nil.mp hcon with ⟨h1, _⟩
      exact this h1
    · obtain ⟨rest', hr1, _⟩ := ih (finish_if_goal (forward_one_cell st).2).2
        (acc ++ (forward_one_cell st).1)
      refine ⟨(forward_one_cell st).1 ++ rest', ?_, ?_⟩
      · rw [hr1, List.append_assoc]
      · intro _
        have := forward_one_cell_ne_nil st
        intro hcon
        rcases List.append_eq_nil.mp hcon with ⟨h1, _⟩
        exact this h1

lemma step_act_ne_nil (st1 : MouseState) : (step_act st1).1 ≠ [] := by
  dsimp only [step_act]
  split_ifs with hf
  · exact hf
  · rcases hdes : choose_next_dir (finish_if_goal st1).2
        (compute_dist (finish_if_goal st1).2) with _ | desired <;>
      dsimp only
    · intro hcon
      rcases List.append_eq_nil.mp hcon with ⟨h1, h2⟩
      rcases List.append_eq_nil.mp h1 with ⟨h3, h4⟩
      exact forward_one_cell_ne_nil _ h4
    · split_ifs <;>
        (obtain ⟨rest, hr, hne⟩ := stride_loop_acc _ _ _
         rw [hr]
         intro hcon
         rcases List.append_eq_nil.mp hcon with ⟨_, h2⟩
         exact hne (by omega) h2)

/-- `step` never returns an empty instruction batch. -/
lemma step_ne_nil (st0 : MouseState) (p : Payload) : (step st0 p).1 ≠ [] := by
  dsimp only [step]
  apply step_act_ne_nil

/-- The finisher when the cell is in the goal region and the heading points
into another goal cell: exactly one braking token when moving, nothing at
rest. -/
lemma finish_if_goal_aligned (st : MouseState)
    (hg : is_goal_cell (st.cell.1, st.cell.2) = true)
    (hh : heading_points_into_goal (st.cell.1, st.cell.2) st.heading = true) :
    finish_if_goal st =
      if 0 < st.momentum then (["F0"], { st with momentum := 0 })
      else ([], st) := by
  dsimp only [finish_if_goal]
  rw [if_neg (not_not_intro hg), if_pos hh]

end App

namespace Tokens

lemma tokStep_L (m : Int) : tokStep m "L" = m := rfl

lemma tokStep_R (m : Int) : tokStep m "R" = m := rfl

lemma runTok_const {toks : List String}
    (h : ∀ t ∈ toks, ∀ m' : Int, tokStep m' t = m') (m : Int) :
    runTok m toks = m := by
  induction toks generalizing m with
  | nil => rfl
  | cons t ts ih =>
    rw [runTok_cons, h t (by simp) m]
    exact ih (fun t' ht' => h t' (by simp [ht'])) m

lemma rotAtRestB_iff (m : Int) (toks : List String) :
    rotAtRestB m toks = true ↔
      ∀ n < toks.length, (toks.getD n "" = "L" ∨ toks.getD n "" = "R") →
        runTok m (toks.take n) = 0 := by
  unfold rotAtRestB
  rw [List.all_eq_true]
  constructor
  · intro h n hn hlr
    have h' := h n (List.mem_range.mpr hn)
    rw [Bool.or_eq_true, Bool.not_eq_true', Bool.or_eq_false_iff] at h'
    rcases h' with ⟨h1, h2⟩ | h'
    · exfalso
      rcases hlr with he | he
      · rw [he] at h1
        simp at h1
      · rw [he] at h2
        simp at h2
    · exact of_decide_eq_true h'
  · intro h n hn
    rw [Bool.or_eq_true, Bool.not_eq_true', Bool.or_eq_false_iff]
    by_cases hl : toks.getD n "" = "L" ∨ toks.getD n "" = "R"
    · right
      exact decide_eq_true (h n (List.mem_range.mp hn) hl)
    · push_neg at hl
      left
      exact ⟨beq_eq_false_iff_ne.mpr hl.1, beq_eq_false_iff_ne.mpr hl.2⟩

end Tokens

namespace App

lemma flatten_replicate_mem {t : String} {k : Nat} {l : List String}
    (h : t ∈ (List.replicate k l).flatten) : t ∈ l := by
  induction k with
  | zero => simp at h
  | succ j ih =>
    rw [List.replicate_succ, List.flatten_cons] at h
    rcases List.mem_append.mp h with h' | h'
    · exact h'
    · exact ih h'

lemma rotate_to_tokens (st : MouseState) (tgt : D4) :
    ∀ t ∈ (rotate_to st tgt).1, t = "R" ∨ t = "L" := by
  intro t ht
  dsimp only [rotate_to] at ht
  split_ifs at ht <;>
    (have hmem := flatten_replicate_mem ht
     simp at hmem
     tauto)

/-- Rotations emitted through `_ensure_rest` followed by `_rotate_to` always
occur at simulated momentum 0 (for the clamped momenta `step` produces). -/
lemma ensure_rotate_rot_at_rest (st : MouseState) (tgt : D4)
    (hm : st.momentum = 0 ∨ st.momentum = 1) :
    Tokens.rotAtRestB st.momentum
      ((ensure_rest st).1 ++ (rotate_to (ensure_rest st).2 tgt).1) = true := by
  have hrot : ∀ st' : MouseState, ∀ n : Nat,
      Tokens.runTok 0 ((rotate_to st' tgt).1.take n) = 0 := by
    intro st' n
    apply Tokens.runTok_const
    intro t ht m'
    have := rotate_to_tokens st' tgt t (List.mem_of_mem_take ht)
    rcases this with rfl | rfl
    · exact Tokens.tokStep_R m'
    · exact Tokens.tokStep_L m'
  rcases hm with hm | hm
  · have he : ensure_rest st = ([], st) := by
      dsimp only [ensure_rest]
      rw [if_neg (by omega)]
    rw [he]
    rw [Tokens.rotAtRestB_iff]
    intro n _ _
    rw [hm]
    simpa using hrot st n
  · have he : ensure_rest st = (["F0"], { st with momentum := 0 }) := by
      dsimp only [ensure_rest]
      rw [if_pos (by omega)]
    rw [he]
    rw [Tokens.rotAtRestB_iff]
    intro n hn hlr
    cases n with
    | zero =>
      exfalso
      rcases hlr with h' | h' <;> simp at h'
    | succ j =>
      have : (("F0" :: (rotate_to { st with momentum := 0 } tgt).1).take (j + 1)) =
          "F0" :: ((rotate_to { st with momentum := 0 } tgt).1.take j) := by
        simp
      rw [show (["F0"] ++ (rotate_to { st with momentum := 0 } tgt).1) =
        "F0" :: (rotate_to { st with momentum := 0 } tgt).1 from rfl] at hlr ⊢
      rw [this, Tokens.runTok_cons, Tokens.tokStep_F0, hm]
      simpa using hrot { st with momentum := 0 } j

end App

namespace MouseGpt

lemma take12_ne_nil {l : List String} (h : l ≠ []) : l.take BATCH_MAX ≠ [] := by
  cases l with
  | nil => exact absurd rfl h
  | cons a t => simp [BATCH_MAX]

end MouseGpt

namespace MouseGpt

/-- `handle_post` returns a nonempty instruction list whenever the request is
not a crash report and either a backlog is queued or the session is exploring,
the judge has not declared the goal, and the mouse is not parked at rest on a
goal cell. -/
lemma handle_post_ne_nil (body : Body) (gs0 : GameState)
    (hcr : body.is_crashed = false)
    (h : (pre_state body gs0).instr_queue ≠ [] ∨
      (body.goal_reached = false ∧ (pre_state body gs0).exploring = true ∧
        ¬(((pre_state body gs0).pose.x, (pre_state body gs0).pose.y) ∈
            GOAL_CELLS ∧ (pre_state body gs0).pose.momentum ≤ 0))) :
    (handle_post body gs0).1.instructions ≠ [] := by
  dsimp only [handle_post]
  rw [hcr]
  rw [if_neg (by simp)]
  by_cases hq : (pre_state body gs0).instr_queue = []
  · rcases h with h | ⟨hgl, hex, hng⟩
    · exact absurd hq h
    · rw [if_neg (not_not_intro hq), hgl, if_neg (by simp), if_pos hex]
      by_cases hz : dget (compute_distance_field (pre_state body gs0).maze)
          (pre_state body gs0).pose.x (pre_state body gs0).pose.y = 0
      · rw [if_pos hz]
        dsimp only
        rw [hq, List.nil_append]
        apply take12_ne_nil
        apply stop_loop_ne_nil
        have hgoal := (dget_cdf_zero_iff (pre_state body gs0).maze _ _).mp hz
        by_contra hle
        exact hng ⟨hgoal, by omega⟩
      · rw [if_neg hz]
        dsimp only
        rcases hsp : shortest_known_path (pre_state body gs0).maze _ GOAL_CELLS
          with _ | p <;> dsimp only
        · rw [hq, List.nil_append]
          exact take12_ne_nil (plan_step_ne_nil _ _ _)
        · split_ifs <;>
            (dsimp only
             rw [hq, List.nil_append]
             exact take12_ne_nil (plan_step_ne_nil _ _ _))
  · rw [if_pos hq]
    exact take12_ne_nil hq

end MouseGpt

namespace Tokens

/-- Decidable bounded check for `SafeRun` (only prefixes up to the list
length matter). -/
def safeRunB (m : Int) (toks : List String) : Bool :=
  (List.range (toks.length + 1)).all (fun n =>
    decide (0 ≤ runTok m (toks.take n)) && decide (runTok m (toks.take n) ≤ 4))

lemma safeRunB_safe {m : Int} {toks : List String}
    (h : safeRunB m toks = true) : SafeRun m toks := by
  intro n
  unfold safeRunB at h
  rw [List.all_eq_true] at h
  by_cases hn : n ≤ toks.length
  · have := h n (List.mem_range.mpr (by omega))
    rw [Bool.and_eq_true, decide_eq_true_eq, decide_eq_true_eq] at this
    exact this
  · have := h toks.length (List.mem_range.mpr (by omega))
    rw [Bool.and_eq_true, decide_eq_true_eq, decide_eq_true_eq,
      List.take_length] at this
    rwa [List.take_of_length_le (by omega)]

end Tokens

namespace Mouse

lemma brake_go_succ (m : Int) (k : Nat) :
    brake_go m (k + 1) =
      if 0 < m then
        if 2 ≤ m then "BB" :: brake_go (m - 2) k
        else "F0" :: brake_go (m - 1) k
      else [] := rfl

lemma SafeRun_brake_go : ∀ (mt : Nat) (m : Int), 0 ≤ m → m ≤ 4 →
    Tokens.SafeRun m (brake_go m mt) := by
  intro mt
  induction mt with
  | zero => intro m h0 h4; exact Tokens.SafeRun_nil h0 h4
  | succ k ih =>
    intro m h0 h4
    rw [brake_go_succ]
    split_ifs with hp h2
    · refine Tokens.SafeRun_cons h0 h4 ?_
      rw [Tokens.tokStep_BB]
      exact ih (m - 2) (by omega) (by omega)
    · refine Tokens.SafeRun_cons h0 h4 ?_
      rw [Tokens.tokStep_F0]
      exact ih (m - 1) (by omega) (by omega)
    · exact Tokens.SafeRun_nil h0 h4

/-- `brake_to_zero_tokens` only ever lowers momentum toward 0: every prefix
of its batch stays in `[0, 4]`. -/
lemma SafeRun_brake (m : Int) (mt : Nat) (h0 : 0 ≤ m) (h4 : m ≤ 4) :
    Tokens.SafeRun m (brake_to_zero_tokens m mt) := by
  dsimp only [brake_to_zero_tokens]
  split_ifs with hle
  · exact Tokens.SafeRun_nil h0 h4
  · exact SafeRun_brake_go mt m h0 h4

/-- `accel_forward_tokens` with the cruise target 2: at most one `F2` from a
momentum below 2, then a hold — every prefix stays in `[0, 4]`. -/
lemma SafeRun_accel (m : Int) (mt : Nat) (h0 : 0 ≤ m) (h4 : m ≤ 4) :
    Tokens.SafeRun m (accel_forward_tokens m 2 mt) := by
  dsimp only [accel_forward_tokens]
  have hmax : max 0 m = m := by omega
  rw [hmax]
  split_ifs with h1 h2 h3
  · refine Tokens.SafeRun_cons h0 h4 ?_
    rw [Tokens.tokStep_F2]
    refine Tokens.SafeRun_cons (by omega) (by omega) ?_
    rw [Tokens.tokStep_F1]
    exact Tokens.SafeRun_nil (by omega) (by omega)
  · refine Tokens.SafeRun_cons h0 h4 ?_
    rw [Tokens.tokStep_F2]
    exact Tokens.SafeRun_nil (by omega) (by omega)
  · refine Tokens.SafeRun_cons h0 h4 ?_
    rw [Tokens.tokStep_F1]
    exact Tokens.SafeRun_nil h0 h4
  · exact Tokens.SafeRun_nil h0 h4

end Mouse

namespace App

/-- `_forward_one_cell` holds or raises momentum to 1: safe from any
momentum in `[0, 4]`, and the tracked momentum afterwards is 1. -/
lemma SafeRun_forward_one_cell (st : MouseState) (h0 : 0 ≤ st.momentum)
    (h4 : st.momentum ≤ 4) :
    Tokens.SafeRun st.momentum (forward_one_cell st).1 ∧
      (forward_one_cell st).2.momentum = 1 := by
  dsimp only [forward_one_cell]
  refine ⟨?_, rfl⟩
  split_ifs with hm
  · refine Tokens.SafeRun_cons h0 h4 ?_
    rw [Tokens.tokStep_F2, hm]
    refine Tokens.SafeRun_cons (by omega) (by omega) ?_
    rw [Tokens.tokStep_F1]
    exact Tokens.SafeRun_nil (by omega) (by omega)
  · refine Tokens.SafeRun_cons h0 h4 ?_
    rw [Tokens.tokStep_F1]
    refine Tokens.SafeRun_cons h0 h4 ?_
    rw [Tokens.tokStep_F1]
    exact Tokens.SafeRun_nil h0 h4

/-- `_ensure_rest` emits at most one braking token and never leaves `[0, 4]`
(for the clamped momenta `step` produces, which lie in `{0, 1}` ⊆ `[0, 4]`). -/
lemma SafeRun_ensure_rest (st : MouseState) (h0 : 0 ≤ st.momentum)
    (h4 : st.momentum ≤ 4) :
    Tokens.SafeRun st.momentum (ensure_rest st).1 ∧
      0 ≤ (ensure_rest st).2.momentum ∧ (ensure_rest st).2.momentum ≤ 4 := by
  dsimp only [ensure_rest]
  split_ifs with hm
  · refine ⟨?_, by norm_num, by norm_num⟩
    refine Tokens.SafeRun_single ⟨h0, h4⟩ ?_
    rw [Tokens.tokStep_F0]
    omega
  · exact ⟨Tokens.SafeRun_nil h0 h4, h0, h4⟩

end App

namespace MouseGpt

/-- `prebrake_to_wide` only brakes: every prefix from a momentum in `[0, 4]`
stays in `[0, 4]`, and the braking simulation `bb_sim` tracking it also lands
in `[0, 4]`. -/
lemma SafeRun_prebrake (m : Int) (h0 : 0 ≤ m) (h4 : m ≤ 4) :
    Tokens.SafeRun m (prebrake_to_wide m) ∧
      0 ≤ bb_sim m (prebrake_to_wide m) ∧ bb_sim m (prebrake_to_wide m) ≤ 4 := by
  interval_cases m <;>
    exact ⟨Tokens.safeRunB_safe (by decide), by decide, by decide⟩

end MouseGpt

namespace MouseGpt

/-- `inplace_turns` refuses to turn while moving: any nonzero momentum
yields no tokens. -/
lemma inplace_turns_moving (f d : Fin 4) (m : Int) (hm : m ≠ 0) :
    inplace_turns f d m = [] := by
  dsimp only [inplace_turns]
  rw [if_pos hm]

/-- Every batch `plan_step_toward` emits from a momentum in `[0, 4]` places
its bare rotation tokens only where the simulated momentum is 0. -/
lemma rot_at_rest_plan_step (m0 : Int) (h0 : 0 ≤ m0) (h4 : m0 ≤ 4)
    (f d : Fin 4) : Tokens.rotAtRestB m0 (plan_step_toward f d m0).1 = true := by
  interval_cases m0 <;> revert f d <;> decide

/-- The goal-stop branch of `handle_post`: when the request is no crash, no
goal confirmation, the backlog is empty, the session explores and the flood
value at the pose is 0, the response is the stop loop's batch and the stored
momentum is the loop's result. -/
lemma handle_post_goal_stop (body : Body) (gs0 : GameState)
    (hcr : body.is_crashed = false) (hgl : body.goal_reached = false)
    (hq : (pre_state body gs0).instr_queue = [])
    (hex : (pre_state body gs0).exploring = true)
    (hz : dget (compute_distance_field (pre_state body gs0).maze)
      (pre_state body gs0).pose.x (pre_state body gs0).pose.y = 0) :
    (handle_post body gs0).1.instructions =
      (stop_loop (pre_state body gs0).pose.momentum).1.take BATCH_MAX ∧
    (handle_post body gs0).2.pose.momentum =
      (stop_loop (pre_state body gs0).pose.momentum).2 := by
  dsimp only [handle_post]
  rw [hcr]
  rw [if_neg (by simp), if_neg (not_not_intro hq), hgl, if_neg (by simp),
    if_pos hex, if_pos hz]
  dsimp only
  rw [hq, List.nil_append]
  exact ⟨rfl, rfl⟩

end MouseGpt

section Fixtures

/-- C1 counterexample session: parked at rest on goal cell `(7,7)` while
still exploring. -/
def c1gs : MouseGpt.GameState := ⟨MouseGpt.Maze.init, ⟨7, 7, 0, 0⟩, true, [], [], 0⟩

/-- C1 counterexample request: healthy, goal not confirmed, momentum 0. -/
def c1body : MouseGpt.Body := ⟨false, false, 0, some 0, none⟩

/-- C1 witness request: same situation but still rolling (momentum 1). -/
def c1wbody : MouseGpt.Body := ⟨false, false, 0, some 1, none⟩

/-- C1 witness body for the fallback generator. -/
def c1mb : Mouse.MBody := ⟨some 0, none, false, false⟩

/-- C4 witness state: momentum 1. -/
def c4st : App.MouseState := ⟨(0, 0), App.D4.N, 1, App.BOUNDARY_WALLS⟩

/-- C6 witness: robot at goal cell `(7,7)` heading East (into goal cell
`(8,7)`) with momentum 1. -/
def c6st : App.MouseState := ⟨(7, 7), App.D4.E, 1, App.BOUNDARY_WALLS⟩

def c6body : MouseGpt.Body := ⟨false, false, 0, some 1, none⟩

def c6gs : MouseGpt.GameState := ⟨MouseGpt.Maze.init, ⟨7, 7, 0, 0⟩, true, [], [], 0⟩

/-- C8 counterexample state: heading South in the open. -/
def c8cst : App.MouseState := ⟨(5, 5), App.D4.S, 0, App.BOUNDARY_WALLS⟩

/-- C8 counterexample field: the straight neighbor `(5,4)` and the reverse
neighbor `(5,6)` share the minimal value 5. -/
def c8dist : List (List Nat) :=
  App.dset (App.dset (List.replicate 16 (List.replicate 16 App.INF)) 5 6 5) 5 4 5

/-- C8 witness session: at `(5,5)` facing North with every edge unknown. -/
def c8gs : MouseGpt.GameState := ⟨MouseGpt.Maze.init, ⟨5, 5, 0, 0⟩, true, [], [], 0⟩

def c8st : App.MouseState := ⟨(5, 5), App.D4.N, 0, App.BOUNDARY_WALLS⟩

/-- C9 session and request: a fresh exploring session receiving a healthy
turn request twice. -/
def c9gs : MouseGpt.GameState := MouseGpt.GameState.init

def c9body : MouseGpt.Body := ⟨false, false, 0, some 0, none⟩

/-- C10 counterexample: at goal cell `(7,7)` heading West (away from the
goal interior) while still rolling. -/
def c10st : App.MouseState := ⟨(7, 7), App.D4.W, 1, App.BOUNDARY_WALLS⟩

/-- C10 witness state: momentum 1 before a re-aim rotation. -/
def c10wst : App.MouseState := ⟨(0, 0), App.D4.N, 1, App.BOUNDARY_WALLS⟩

end Fixtures

/-- C1: a turn response always carries at least one instruction — refuted as
stated. At rest on a goal cell while exploring, `handle_post` answers with an
empty instruction list although the request is not a crash and the session is
not confirmed terminal (the response itself says `end: false`). -/
theorem C1_counterexample :
    c1body.is_crashed = false ∧ c1body.goal_reached = false ∧
    (MouseGpt.handle_post c1body c1gs).1.end_ = false ∧
    (MouseGpt.handle_post c1body c1gs).1.instructions = [] :=
  ⟨rfl, rfl, rfl, rfl⟩

/-- C1 (amended): `MicroMouseController.step` and `choose_instructions`
always answer with at least one token; `handle_post` does so whenever the
request is not a crash report and either a backlog is queued, or the session
is exploring with the goal unconfirmed and the mouse is not already resting
on a goal cell. -/
theorem C1_response_nonempty (body : MouseGpt.Body) (gs0 : MouseGpt.GameState)
    (st0 : App.MouseState) (p : App.Payload) (mb : Mouse.MBody)
    (hcr : body.is_crashed = false)
    (h : (MouseGpt.pre_state body gs0).instr_queue ≠ [] ∨
      (body.goal_reached = false ∧
        (MouseGpt.pre_state body gs0).exploring = true ∧
        ¬(((MouseGpt.pre_state body gs0).pose.x,
            (MouseGpt.pre_state body gs0).pose.y) ∈ MouseGpt.GOAL_CELLS ∧
          (MouseGpt.pre_state body gs0).pose.momentum ≤ 0))) :
    (MouseGpt.handle_post body gs0).1.instructions ≠ [] ∧
    (App.step st0 p).1 ≠ [] ∧ Mouse.choose_instructions mb ≠ [] :=
  ⟨MouseGpt.handle_post_ne_nil body gs0 hcr h, App.step_ne_nil st0 p,
    Mouse.choose_instructions_ne_nil mb⟩

/-- C1 witness: the amended claim applied to the same goal-cell session
still rolling (momentum 1), a fresh controller state and a fallback body. -/
theorem C1_witness :
    (MouseGpt.handle_post c1wbody c1gs).1.instructions ≠ [] ∧
    (App.step App.MouseState.init ⟨some 0, none⟩).1 ≠ [] ∧
    Mouse.choose_instructions c1mb ≠ [] :=
  C1_response_nonempty c1wbody c1gs App.MouseState.init ⟨some 0, none⟩ c1mb rfl
    (Or.inr ⟨rfl, rfl, by decide⟩)

/-- C2: wall knowledge is monotonic. A recorded wall — `some true` in the
maze's tri-state table, `true` in the controller's wall set — survives every
later `set_wall` / `_mark_wall` call, whatever side or value they report. -/
theorem C2_wall_monotonic (m : MouseGpt.Maze) (x y : Int) (d : Fin 4)
    (calls : List MouseGpt.WallCall) (w : Int × Int × App.D4 → Bool)
    (e : Int × Int × App.D4) (marks : List ((Int × Int) × App.D4 × App.Side))
    (h1 : m.walls x y d = some true) (h2 : w e = true) :
    (MouseGpt.applyCalls calls m).walls x y d = some true ∧
    App.applyMarks marks w e = true :=
  ⟨MouseGpt.applyCalls_preserves_true h1 calls, App.applyMarks_mono h2 marks⟩

/-- C2 witness: a wall recorded at `(3,3)` toward North survives a later
"open" reading of the same edge, and a controller wall survives a later mark
elsewhere. -/
theorem C2_witness :
    (MouseGpt.applyCalls [⟨3, 3, 0, false⟩]
      (MouseGpt.set_wall MouseGpt.Maze.init 3 3 0 true)).walls 3 3 0 =
        some true ∧
    App.applyMarks [((3, 3), App.D4.N, App.Side.F)]
      (App.addWall App.BOUNDARY_WALLS (3, 3, App.D4.N)) (3, 3, App.D4.N) =
        true :=
  C2_wall_monotonic _ 3 3 0 _ _ _ _ (by decide) (by decide)

/-- C4: from a momentum in `[0,4]`, every token-generating operation keeps
the simulated momentum of every emitted prefix in `[0,4]`, and the tracked
momentum each of them stores is again in `[0,4]`. -/
theorem C4_momentum_bounds (m : Int) (mt : Nat) (st : App.MouseState)
    (h0 : 0 ≤ m) (h4 : m ≤ 4)
    (hs0 : 0 ≤ st.momentum) (hs4 : st.momentum ≤ 4) :
    (Tokens.SafeRun m [(MouseGpt.straight_token_for m).1] ∧
      0 ≤ (MouseGpt.straight_token_for m).2 ∧
      (MouseGpt.straight_token_for m).2 ≤ 4) ∧
    (Tokens.SafeRun m (MouseGpt.prebrake_to_wide m) ∧
      0 ≤ MouseGpt.bb_sim m (MouseGpt.prebrake_to_wide m) ∧
      MouseGpt.bb_sim m (MouseGpt.prebrake_to_wide m) ≤ 4) ∧
    Tokens.SafeRun m (Mouse.accel_forward_tokens m 2 mt) ∧
    Tokens.SafeRun m (Mouse.brake_to_zero_tokens m mt) ∧
    (Tokens.SafeRun st.momentum (App.forward_one_cell st).1 ∧
      (App.forward_one_cell st).2.momentum = 1) ∧
    (Tokens.SafeRun st.momentum (App.ensure_rest st).1 ∧
      0 ≤ (App.ensure_rest st).2.momentum ∧
      (App.ensure_rest st).2.momentum ≤ 4) :=
  ⟨⟨MouseGpt.SafeRun_straight m h0 h4,
      (MouseGpt.straight_token_spec m h0 h4).2⟩,
    MouseGpt.SafeRun_prebrake m h0 h4,
    Mouse.SafeRun_accel m mt h0 h4,
    Mouse.SafeRun_brake m mt h0 h4,
    App.SafeRun_forward_one_cell st hs0 hs4,
    App.SafeRun_ensure_rest st hs0 hs4⟩

/-- C4 witness: the bound at momentum 3 with a 3-token budget and a
controller state at momentum 1. -/
theorem C4_witness :
    (Tokens.SafeRun 3 [(MouseGpt.straight_token_for 3).1] ∧
      0 ≤ (MouseGpt.straight_token_for 3).2 ∧
      (MouseGpt.straight_token_for 3).2 ≤ 4) ∧
    (Tokens.SafeRun 3 (MouseGpt.prebrake_to_wide 3) ∧
      0 ≤ MouseGpt.bb_sim 3 (MouseGpt.prebrake_to_wide 3) ∧
      MouseGpt.bb_sim 3 (MouseGpt.prebrake_to_wide 3) ≤ 4) ∧
    Tokens.SafeRun 3 (Mouse.accel_forward_tokens 3 2 3) ∧
    Tokens.SafeRun 3 (Mouse.brake_to_zero_tokens 3 3) ∧
    (Tokens.SafeRun c4st.momentum (App.forward_one_cell c4st).1 ∧
      (App.forward_one_cell c4st).2.momentum = 1) ∧
    (Tokens.SafeRun c4st.momentum (App.ensure_rest c4st).1 ∧
      0 ≤ (App.ensure_rest c4st).2.momentum ∧
      (App.ensure_rest c4st).2.momentum ≤ 4) :=
  C4_momentum_bounds 3 3 c4st (by decide) (by decide) (by decide) (by decide)

/-- C5: reciprocity is preserved by every wall-recording call — starting
from any reciprocal wall table, after any sequence of `set_wall` /
`_mark_wall` calls the edge state stored at `(x,y)` toward a neighbor still
agrees with the state the neighbor stores for the opposite direction. -/
theorem C5_reciprocity (m : MouseGpt.Maze) (calls : List MouseGpt.WallCall)
    (w : Int × Int × App.D4 → Bool)
    (marks : List ((Int × Int) × App.D4 × App.Side))
    (hm : MouseGpt.MazeSymm m) (hw : App.WallsSymm w) :
    MouseGpt.MazeSymm (MouseGpt.applyCalls calls m) ∧
    App.WallsSymm (App.applyMarks marks w) :=
  ⟨MouseGpt.applyCalls_symm hm calls, App.applyMarks_symm hw marks⟩

/-- C5 witness: a fresh maze and the boundary-seeded wall set after one
recording call each. -/
theorem C5_witness :
    MouseGpt.MazeSymm (MouseGpt.applyCalls [⟨2, 2, 1, true⟩]
      MouseGpt.Maze.init) ∧
    App.WallsSymm (App.applyMarks [((2, 2), App.D4.E, App.Side.F)]
      App.BOUNDARY_WALLS) :=
  C5_reciprocity MouseGpt.Maze.init _ App.BOUNDARY_WALLS _
    MouseGpt.init_symm App.boundary_symm

/-- C6: goal braking. When the current cell is in the goal region and the
heading points into another goal cell, `_finish_if_goal` at momentum 1 emits
exactly one deceleration token and tracks momentum 0; `handle_post`'s
goal-stop branch answers with the stop loop's batch — only deceleration
tokens, landing exactly at momentum 0 — which at momentum 1 is exactly one
`F0`. -/
theorem C6_goal_brake (st : App.MouseState) (body : MouseGpt.Body)
    (gs0 : MouseGpt.GameState)
    (hg : App.is_goal_cell (st.cell.1, st.cell.2) = true)
    (hh : App.heading_points_into_goal (st.cell.1, st.cell.2) st.heading = true)
    (hm1 : st.momentum = 1)
    (hcr : body.is_crashed = false) (hgl : body.goal_reached = false)
    (hq : (MouseGpt.pre_state body gs0).instr_queue = [])
    (hex : (MouseGpt.pre_state body gs0).exploring = true)
    (hz : MouseGpt.dget
      (MouseGpt.compute_distance_field (MouseGpt.pre_state body gs0).maze)
      (MouseGpt.pre_state body gs0).pose.x
      (MouseGpt.pre_state body gs0).pose.y = 0)
    (hm1' : (MouseGpt.pre_state body gs0).pose.momentum = 1) :
    App.finish_if_goal st = (["F0"], { st with momentum := 0 }) ∧
    (MouseGpt.handle_post body gs0).1.instructions = ["F0"] ∧
    (MouseGpt.handle_post body gs0).2.pose.momentum = 0 ∧
    (∀ mo : Int, (∀ t ∈ (MouseGpt.stop_loop mo).1, t = "BB" ∨ t = "F0") ∧
      (0 < mo → Tokens.runTok mo (MouseGpt.stop_loop mo).1 = 0 ∧
        (MouseGpt.stop_loop mo).2 = 0)) := by
  obtain ⟨hi, hmo⟩ := MouseGpt.handle_post_goal_stop body gs0 hcr hgl hq hex hz
  rw [hm1'] at hi hmo
  refine ⟨?_, hi, hmo, ?_⟩
  · rw [App.finish_if_goal_aligned st hg hh, hm1]
    norm_num
  · intro mo
    obtain ⟨h2, hall, hrun⟩ := MouseGpt.stop_loop_spec mo
    refine ⟨hall, fun hpos => ⟨?_, ?_⟩⟩
    · rw [hrun, h2, if_pos hpos]
    · rw [h2, if_pos hpos]

/-- C6 witness: the documented scenario — robot at `(7,7)` heading East into
goal cell `(8,7)`, momentum 1, no wall recorded on the shared edge. -/
theorem C6_witness :
    App.finish_if_goal c6st = (["F0"], { c6st with momentum := 0 }) ∧
    (MouseGpt.handle_post c6body c6gs).1.instructions = ["F0"] ∧
    (MouseGpt.handle_post c6body c6gs).2.pose.momentum = 0 ∧
    (∀ mo : Int, (∀ t ∈ (MouseGpt.stop_loop mo).1, t = "BB" ∨ t = "F0") ∧
      (0 < mo → Tokens.runTok mo (MouseGpt.stop_loop mo).1 = 0 ∧
        (MouseGpt.stop_loop mo).2 = 0)) :=
  C6_goal_brake c6st c6body c6gs (by decide) (by decide) rfl rfl rfl rfl rfl
    rfl rfl

/-- C7: whenever the request's run counter differs from the stored value,
the reset block restores the start pose (cell `(0,0)`, heading index 0,
momentum 0), clears the backlog and the cached route, forces exploring, and
leaves the learned maze — wall knowledge included — untouched. -/
theorem C7_run_reset (run : Int) (gs : MouseGpt.GameState)
    (h : run ≠ gs.last_run) :
    (MouseGpt.run_reset run gs).pose = ⟨0, 0, 0, 0⟩ ∧
    (MouseGpt.run_reset run gs).instr_queue = [] ∧
    (MouseGpt.run_reset run gs).speed_path = [] ∧
    (MouseGpt.run_reset run gs).exploring = true ∧
    (MouseGpt.run_reset run gs).maze = gs.maze ∧
    (MouseGpt.run_reset run gs).last_run = run := by
  dsimp only [MouseGpt.run_reset]
  rw [if_pos h]
  exact ⟨rfl, rfl, rfl, rfl, rfl, rfl⟩

/-- C7 witness: a fresh session hit with run counter 1. -/
theorem C7_witness :
    (MouseGpt.run_reset 1 MouseGpt.GameState.init).pose = ⟨0, 0, 0, 0⟩ ∧
    (MouseGpt.run_reset 1 MouseGpt.GameState.init).instr_queue = [] ∧
    (MouseGpt.run_reset 1 MouseGpt.GameState.init).speed_path = [] ∧
    (MouseGpt.run_reset 1 MouseGpt.GameState.init).exploring = true ∧
    (MouseGpt.run_reset 1 MouseGpt.GameState.init).maze =
      MouseGpt.GameState.init.maze ∧
    (MouseGpt.run_reset 1 MouseGpt.GameState.init).last_run = 1 :=
  C7_run_reset 1 MouseGpt.GameState.init (by decide)

/-- C8: heading-priority tie-break — refuted for the controller. At `(5,5)`
heading South, the straight neighbor `(5,4)` and the reverse neighbor
`(5,6)` both hold the minimal flood value 5 and both are open candidates,
yet `_choose_next_dir` returns North — the reverse of the heading — because
its scan keeps the first strict improvement in the fixed N, E, S, W order. -/
theorem C8_counterexample :
    c8cst.heading = App.D4.S ∧
    App.cnd_cand c8cst App.D4.S = true ∧
    App.cnd_cand c8cst App.D4.N = true ∧
    App.cnd_val c8cst c8dist App.D4.S = App.cnd_val c8cst c8dist App.D4.N ∧
    (∀ d : App.D4, App.cnd_cand c8cst d = true →
      App.cnd_val c8cst c8dist App.D4.S ≤ App.cnd_val c8cst c8dist d) ∧
    App.choose_next_dir c8cst c8dist = some App.D4.N :=
  ⟨rfl, rfl, rfl, rfl, by decide, rfl⟩

/-- C8 (amended): `choose_next_cell` does break distance ties by heading
priority — its chosen direction minimizes the `(score, pref)` key where
`pref` ranks straight before left before right before back — while
`_choose_next_dir` instead keeps the first strict minimum of the fixed
N, E, S, W scan: every earlier candidate is strictly worse and every later
one no better. -/
theorem C8_tie_break (gs : MouseGpt.GameState) (dist : List (List Nat))
    (d0 : Fin 4) (st : App.MouseState) (dist2 : List (List Nat))
    (hc : MouseGpt.nav_cand gs.maze gs.pose.x gs.pose.y d0 = true) :
    (∃ dres : Fin 4,
      MouseGpt.choose_next_cell gs dist =
        (gs.pose.x + MouseGpt.DX dres, gs.pose.y + MouseGpt.DY dres, dres) ∧
      MouseGpt.nav_cand gs.maze gs.pose.x gs.pose.y dres = true ∧
      ∀ d : Fin 4, MouseGpt.nav_cand gs.maze gs.pose.x gs.pose.y d = true →
        MouseGpt.optLe
          (MouseGpt.nav_opt dist gs.pose.facing gs.pose.x gs.pose.y dres)
          (MouseGpt.nav_opt dist gs.pose.facing gs.pose.x gs.pose.y d) =
          true) ∧
    ((App.choose_next_dir st dist2 = none ∧
      ∀ d ∈ App.SIDES, App.cnd_cand st d = true →
        ¬(App.cnd_val st dist2 d < 10 ^ 9)) ∨
    (∃ db p1 p2, App.choose_next_dir st dist2 = some db ∧
      App.cnd_cand st db = true ∧ App.SIDES = p1 ++ db :: p2 ∧
      (∀ d ∈ p1, App.cnd_cand st d = true →
        App.cnd_val st dist2 db < App.cnd_val st dist2 d) ∧
      (∀ d ∈ p2, App.cnd_cand st d = true →
        App.cnd_val st dist2 db ≤ App.cnd_val st dist2 d))) :=
  ⟨MouseGpt.choose_next_cell_spec gs dist d0 hc,
    App.choose_next_dir_spec st dist2⟩

/-- C8 witness: the amended claim at `(5,5)` facing North over an
all-unknown maze and an empty flood table. -/
theorem C8_witness :
    (∃ dres : Fin 4,
      MouseGpt.choose_next_cell c8gs [] =
        (c8gs.pose.x + MouseGpt.DX dres, c8gs.pose.y + MouseGpt.DY dres,
          dres) ∧
      MouseGpt.nav_cand c8gs.maze c8gs.pose.x c8gs.pose.y dres = true ∧
      ∀ d : Fin 4, MouseGpt.nav_cand c8gs.maze c8gs.pose.x c8gs.pose.y d =
          true →
        MouseGpt.optLe
          (MouseGpt.nav_opt [] c8gs.pose.facing c8gs.pose.x c8gs.pose.y dres)
          (MouseGpt.nav_opt [] c8gs.pose.facing c8gs.pose.x c8gs.pose.y d) =
          true) ∧
    ((App.choose_next_dir c8st [] = none ∧
      ∀ d ∈ App.SIDES, App.cnd_cand c8st d = true →
        ¬(App.cnd_val c8st [] d < 10 ^ 9)) ∨
    (∃ db p1 p2, App.choose_next_dir c8st [] = some db ∧
      App.cnd_cand c8st db = true ∧ App.SIDES = p1 ++ db :: p2 ∧
      (∀ d ∈ p1, App.cnd_cand c8st d = true →
        App.cnd_val c8st [] db < App.cnd_val c8st [] d) ∧
      (∀ d ∈ p2, App.cnd_cand c8st d = true →
        App.cnd_val c8st [] db ≤ App.cnd_val c8st [] d))) :=
  C8_tie_break c8gs [] 0 c8st [] (by decide)

/-- C9: no token is ever emitted in two different responses — refuted. A
fresh exploring session's first response plans and emits a nonempty batch,
but the exploring branch stores the full plan in the backlog without
dropping the emitted prefix, so the identical next request emits exactly the
same tokens again. -/
theorem C9_double_emission :
    (MouseGpt.handle_post c9body c9gs).1.instructions ≠ [] ∧
    (MouseGpt.handle_post c9body
        (MouseGpt.handle_post c9body c9gs).2).1.instructions =
      (MouseGpt.handle_post c9body c9gs).1.instructions :=
  ⟨by decide, rfl⟩

/-- C10: rotation tokens only at momentum 0 — refuted for the controller's
goal re-aim. At goal cell `(7,7)` heading West with momentum 1,
`_finish_if_goal` emits bare `R` rotations immediately, while the tracked
momentum is still 1. -/
theorem C10_counterexample :
    c10st.momentum = 1 ∧
    (App.finish_if_goal c10st).1 = ["R", "R", "F1", "F0"] ∧
    Tokens.rotAtRestB c10st.momentum (App.finish_if_goal c10st).1 = false :=
  ⟨rfl, rfl, rfl⟩

/-- C10 (amended): outside `_finish_if_goal`'s re-aim, rotations happen only
at rest — every batch `plan_step_toward` emits from a momentum in `[0,4]`
has its bare rotation tokens at simulated momentum 0, `inplace_turns`
refuses to turn at nonzero momentum, and the controller's
`_ensure_rest` + `_rotate_to` composition brakes before it spins. -/
theorem C10_rotations_at_rest (m0 : Int) (f d : Fin 4) (st : App.MouseState)
    (tgt : App.D4) (h0 : 0 ≤ m0) (h4 : m0 ≤ 4)
    (hm : st.momentum = 0 ∨ st.momentum = 1) :
    Tokens.rotAtRestB m0 (MouseGpt.plan_step_toward f d m0).1 = true ∧
    (m0 ≠ 0 → MouseGpt.inplace_turns f d m0 = []) ∧
    Tokens.rotAtRestB st.momentum
      ((App.ensure_rest st).1 ++
        (App.rotate_to (App.ensure_rest st).2 tgt).1) = true :=
  ⟨MouseGpt.rot_at_rest_plan_step m0 h0 h4 f d,
    fun hne => MouseGpt.inplace_turns_moving f d m0 hne,
    App.ensure_rotate_rot_at_rest st tgt hm⟩

/-- C10 witness: a U-turn planned at momentum 1 and a controller rotation
from momentum 1. -/
theorem C10_witness :
    Tokens.rotAtRestB 1 (MouseGpt.plan_step_toward 0 2 1).1 = true ∧
    ((1 : Int) ≠ 0 → MouseGpt.inplace_turns 0 2 1 = []) ∧
    Tokens.rotAtRestB c10wst.momentum
      ((App.ensure_rest c10wst).1 ++
        (App.rotate_to (App.ensure_rest c10wst).2 App.D4.E).1) = true :=
  C10_rotations_at_rest 1 0 2 c10wst App.D4.E (by decide) (by decide)
    (Or.inr rfl)

namespace MouseGpt

end MouseGpt

namespace App

end App

namespace MouseGpt

/-- Every `handle_post` response is capped at `BATCH_MAX` tokens. -/
lemma handle_post_len_le (body : Body) (gs0 : GameState) :
    (handle_post body gs0).1.instructions.length ≤ BATCH_MAX := by
  dsimp only [handle_post]
  split_ifs <;>
    first
      | exact Nat.zero_le _
      | exact List.length_take_le _ _
      | (split <;>
          first
            | exact Nat.zero_le _
            | exact List.length_take_le _ _)

/-- The queue-drain branch: the response is the backlog's 12-token prefix and
exactly the remaining suffix stays queued. -/
lemma handle_post_drain (body : Body) (gs0 : GameState)
    (hcr : body.is_crashed = false)
    (hq : (pre_state body gs0).instr_queue ≠ []) :
    (handle_post body gs0).1.instructions =
      (pre_state body gs0).instr_queue.take BATCH_MAX ∧
    (handle_post body gs0).2.instr_queue =
      (pre_state body gs0).instr_queue.drop BATCH_MAX := by
  dsimp only [handle_post]
  rw [hcr, if_neg (by simp), if_pos hq]
  exact ⟨rfl, rfl⟩

/-- The exploring branches (goal stop and plan step) append their fresh plan
to the backlog and answer with its prefix without dropping it: the response
equals the prefix of the backlog they store. -/
lemma handle_post_keeps_emitted (body : Body) (gs0 : GameState)
    (hcr : body.is_crashed = false) (hgl : body.goal_reached = false)
    (hq : (pre_state body gs0).instr_queue = [])
    (hex : (pre_state body gs0).exploring = true) :
    (handle_post body gs0).1.instructions =
      (handle_post body gs0).2.instr_queue.take BATCH_MAX := by
  dsimp only [handle_post]
  rw [hcr, if_neg (by simp), if_neg (not_not_intro hq), hgl,
    if_neg (by simp), if_pos hex]
  by_cases hz : dget (compute_distance_field (pre_state body gs0).maze)
      (pre_state body gs0).pose.x (pre_state body gs0).pose.y = 0
  · rw [if_pos hz]
  · rw [if_neg hz]

/-- The speed-plan branch likewise returns the stored backlog's prefix
without dropping it. -/
lemma handle_post_keeps_emitted_speed (body : Body) (gs0 : GameState)
    (hcr : body.is_crashed = false) (hgl : body.goal_reached = false)
    (hq : (pre_state body gs0).instr_queue = [])
    (hex : (pre_state body gs0).exploring = false)
    (hp : (pre_state body gs0).pose.x = 0 ∧ (pre_state body gs0).pose.y = 0 ∧
      (pre_state body gs0).pose.momentum = 0) :
    (handle_post body gs0).1.instructions =
      (handle_post body gs0).2.instr_queue.take BATCH_MAX := by
  dsimp only [handle_post]
  rw [hcr, if_neg (by simp), if_neg (not_not_intro hq), hgl,
    if_neg (by simp), hex, if_neg (by simp), if_pos hp]
  rcases hsp : shortest_known_path (pre_state body gs0).maze (0, 0) GOAL_CELLS
    with _ | p <;> dsimp only
  rw [hq]
  simp

end MouseGpt

/-- C9 (amended): every response is capped at 12 tokens, and the queue-drain
branch emits the backlog's 12-token prefix keeping exactly the remaining
suffix; but the exploring branches (goal stop and plan step) and the
speed-plan branch answer with the prefix of the very backlog they store —
the emitted tokens are not dropped and stay queued for the next turn. -/
theorem C9_batch_cap (body : MouseGpt.Body) (gs0 : MouseGpt.GameState) :
    (MouseGpt.handle_post body gs0).1.instructions.length ≤
      MouseGpt.BATCH_MAX ∧
    (body.is_crashed = false →
      (MouseGpt.pre_state body gs0).instr_queue ≠ [] →
      (MouseGpt.handle_post body gs0).1.instructions =
        (MouseGpt.pre_state body gs0).instr_queue.take MouseGpt.BATCH_MAX ∧
      (MouseGpt.handle_post body gs0).2.instr_queue =
        (MouseGpt.pre_state body gs0).instr_queue.drop MouseGpt.BATCH_MAX) ∧
    (body.is_crashed = false → body.goal_reached = false →
      (MouseGpt.pre_state body gs0).instr_queue = [] →
      (MouseGpt.pre_state body gs0).exploring = true →
      (MouseGpt.handle_post body gs0).1.instructions =
        (MouseGpt.handle_post body gs0).2.instr_queue.take
          MouseGpt.BATCH_MAX) ∧
    (body.is_crashed = false → body.goal_reached = false →
      (MouseGpt.pre_state body gs0).instr_queue = [] →
      (MouseGpt.pre_state body gs0).exploring = false →
      ((MouseGpt.pre_state body gs0).pose.x = 0 ∧
        (MouseGpt.pre_state body gs0).pose.y = 0 ∧
        (MouseGpt.pre_state body gs0).pose.momentum = 0) →
      (MouseGpt.handle_post body gs0).1.instructions =
        (MouseGpt.handle_post body gs0).2.instr_queue.take
          MouseGpt.BATCH_MAX) :=
  ⟨MouseGpt.handle_post_len_le body gs0,
    fun hcr hq => MouseGpt.handle_post_drain body gs0 hcr hq,
    fun hcr hgl hq hex => MouseGpt.handle_post_keeps_emitted body gs0 hcr hgl
      hq hex,
    fun hcr hgl hq hex hp => MouseGpt.handle_post_keeps_emitted_speed body gs0
      hcr hgl hq hex hp⟩
